import Mathlib

/-!
# Aquasense: aquarium controller (`src/main.cpp`)

A shallow embedding of the Arduino sketch and proofs about its fan hysteresis,
its debounced manual-feed interrupt, the feed arbitration of `loop()`, the
valve sequencing of `feedFish()` and the pH conversion of `readPH()`.

Modelling conventions

* The globals of the sketch, the clock behind `millis()`, the levels of the
  output pins, the last angle written to the servo and the ordered list of
  everything written to the display, the serial port, the servo and the pins
  form the `State`.
* `millis()` is a 32-bit `unsigned long`: the clock is a natural number of
  milliseconds since boot and `millis` reads it modulo `2 ^ 32`; unsigned
  subtraction is `usub`.
* Time passes only inside `delay()` and inside the blocking temperature
  conversion (whose duration is an input); every other statement is
  instantaneous.
* The falling edges of the feed button are an input: a list of times.  Whenever
  time passes over such an edge, `buttonInterrupt` runs at that time.
* `float` values are rationals: comparisons of a `float` against `30.0`,
  `28.0` and the disconnect sentinel are exact, and the arithmetic of
  `readPH()` is carried out without rounding.
* `DEVICE_DISCONNECTED_C` comes from the temperature library, not from the
  sketch; it is the parameter `disc` throughout.  The examples use -127, its
  value in the library.
* The automatic branch reads `millis()` once into `currentMillis`; the manual
  branch reads it again after `feedFish()` has returned.
-/

namespace Aquasense

/-! ## Constants of the sketch -/

def FAN_PIN : Nat := 11
def SAMPLES : Nat := 10
def PH_SLOPE : ℚ := -8.041885
def PH_OFFSET : ℚ := 30.701568
def PH_LED_PIN : Nat := 10
def debounceDelay : Nat := 500
def autoFeedInterval : Nat := 60000
def VALVE_CLOSED_POSITION : Int := 0
def VALVE_OPEN_POSITION : Int := 90
def FEEDING_DURATION : Nat := 1000

/-! ## Data model -/

/-- One observable output operation of the sketch. -/
inductive Out where
  | lcdSetCursor (col row : Nat)
  | lcdPrint (text : String)
  | lcdPrintNat (n : Nat)
  | lcdPrintFloat (x : ℚ) (digits : Nat)
  | serialPrint (text : String)
  | serialPrintln (text : String)
  | serialPrintFloat (x : ℚ) (digits : Nat)
  | servoWrite (angle : Int)
  | digitalWrite (pin : Nat) (level : Bool)
  deriving DecidableEq

/-- The globals of the sketch together with the hardware they drive. -/
structure State where
  /-- Milliseconds since boot, not wrapped. -/
  clock : Nat
  /-- Times of the falling edges of the feed button that are still to come. -/
  button : List Nat
  fanRunning : Bool
  phAlertActive : Bool
  manualFeedRequested : Bool
  lastDebounceTime : Nat
  lastAutoFeedTime : Nat
  /-- Last angle written to `feederServo`. -/
  servo : Int
  /-- Level of every digital output pin. -/
  pinLevel : Nat → Bool
  /-- Every output operation so far, oldest first. -/
  log : List Out

/-- What the peripherals deliver during one iteration of `loop()`. -/
structure Env where
  /-- The value of `rtc.now().hour()`. -/
  hour : Nat
  /-- The value of `rtc.now().minute()`. -/
  minute : Nat
  /-- The value of the `i`-th call of `analogRead(PH_PIN)` in `readPH()`. -/
  adc : Nat → Int
  /-- The value of `sensors.getTempCByIndex(0)`. -/
  tempC : ℚ
  /-- Milliseconds for which `sensors.requestTemperatures()` blocks. -/
  conversion : Nat

/-- Position of the feeder valve. -/
inductive ValvePosition where
  | Closed
  | Open
  deriving DecidableEq

/-- The valve is closed exactly when the servo stands at `VALVE_CLOSED_POSITION`. -/
def valve (s : State) : ValvePosition :=
  if s.servo = VALVE_CLOSED_POSITION then .Closed else .Open

/-! ## Clock and interrupt -/

/-- The value of `millis()`: the clock as a 32-bit unsigned number. -/
def millis (s : State) : Nat := s.clock % 2 ^ 32

/-- Subtraction of 32-bit unsigned numbers. -/
def usub (a b : Nat) : Nat := (a % 2 ^ 32 + 2 ^ 32 - b % 2 ^ 32) % 2 ^ 32

/-- The test of `buttonInterrupt()`: `(millis() - lastDebounceTime) > debounceDelay`. -/
def debounceOk (s : State) : Bool :=
  decide (usub (millis s) s.lastDebounceTime > debounceDelay)

/-- The interrupt service routine of the feed button. -/
def buttonInterrupt (s : State) : State :=
  if debounceOk s then
    { s with manualFeedRequested := true, lastDebounceTime := millis s }
  else s

/-- The button fires at time `t`: the handler runs with the clock standing at `t`. -/
def fire (t : Nat) (s : State) : State :=
  buttonInterrupt { s with clock := max s.clock t }

/-- The handler invoked at each of the given times in turn. -/
def presses (ts : List Nat) (s : State) : State :=
  ts.foldl (fun st t => fire t st) s

/-- Let `ms` milliseconds pass: the handler runs for every button edge that
falls due, then the clock stands `ms` later. -/
def elapse (ms : Nat) (s : State) : State :=
  let deadline := s.clock + ms
  let due := s.button.takeWhile (fun t => decide (t ≤ deadline))
  let rest := s.button.dropWhile (fun t => decide (t ≤ deadline))
  let s1 := presses due { s with button := rest }
  { s1 with clock := deadline }

/-- The times among `ts` at which the handler, invoked at each of them in turn
from state `s`, takes its branch (accepts the trigger). -/
def acceptedTimes : List Nat → State → List Nat
  | [], _ => []
  | t :: ts, s =>
    let s1 : State := { s with clock := max s.clock t }
    if debounceOk s1 then s1.clock :: acceptedTimes ts (buttonInterrupt s1)
    else acceptedTimes ts (buttonInterrupt s1)

/-! ## Output primitives -/

/-- Append one output operation to the log. -/
def emit (e : Out) (s : State) : State := { s with log := s.log ++ [e] }

/-- The call `feederServo.write(angle)`. -/
def feederServoWrite (angle : Int) (s : State) : State :=
  emit (.servoWrite angle) { s with servo := angle }

/-- The call `digitalWrite(pin, level)`. -/
def digitalWrite (pin : Nat) (level : Bool) (s : State) : State :=
  emit (.digitalWrite pin level)
    { s with pinLevel := fun p => if p = pin then level else s.pinLevel p }

/-! ## `setup()` -/

/-- Lines 73-95 of `setup()`: what runs once `rtc.begin()` has succeeded. -/
def setupState (s : State) : State :=
  let s := digitalWrite FAN_PIN false s
  let s := digitalWrite PH_LED_PIN false s
  let s := feederServoWrite VALVE_CLOSED_POSITION s
  let s := { s with lastAutoFeedTime := millis s }
  let s := emit (.lcdSetCursor 0 0) s
  let s := emit (.lcdPrint "pH:      ") s
  let s := emit (.lcdSetCursor 0 1) s
  let s := emit (.lcdPrint "Temp:") s
  let s := emit (.lcdSetCursor 11 1) s
  emit (.lcdPrint "READY") s

/-- The function `setup()`.  When `rtc.begin()` fails the sketch prints the error
and spins forever: there is no state after `setup()`. -/
def setup (rtcOk : Bool) (s : State) : Option State :=
  if rtcOk then some (setupState s) else none

/-- The globals as initialised at power-on, before `setup()`; the servo is at
an arbitrary angle and the button edges are given. -/
def boot (angle : Int) (edges : List Nat) : State :=
  { clock := 0, button := edges, fanRunning := false, phAlertActive := false,
    manualFeedRequested := false, lastDebounceTime := 0, lastAutoFeedTime := 0,
    servo := angle, pinLevel := fun _ => false, log := [] }

/-! ## `readPH()` -/

/-- A value stored in a 32-bit signed `long`. -/
def wrapLong (x : Int) : Int := (x + 2 ^ 31) % 2 ^ 32 - 2 ^ 31

/-- The sampling loop of `readPH()`: the sum of the samples and the state after
the ten short delays. -/
def sampleLoop (adc : Nat → Int) (s : State) : Int × State :=
  (List.range SAMPLES).foldl
    (fun (acc : Int × State) i => (wrapLong (acc.1 + adc i), elapse 10 acc.2)) (0, s)

/-- The function `readPH()`: the pH value and the state after sampling. -/
def readPH (adc : Nat → Int) (s : State) : ℚ × State :=
  let r := sampleLoop adc s
  let voltage : ℚ := (r.1 : ℚ) / (SAMPLES : ℚ) * 5.0 / 1024.0
  let pH : ℚ := voltage * PH_SLOPE + PH_OFFSET
  (pH, r.2)

/-! ## `feedFish()` -/

/-- Lines 115-118: present the feeding status and open the valve. -/
def feedOpen (s : State) : State :=
  let s := emit (.lcdSetCursor 0 0) s
  let s := emit (.lcdPrint "FEEDING...      ") s
  let s := feederServoWrite VALVE_OPEN_POSITION s
  emit (.serialPrintln "Feeding: Valve opened") s

/-- Lines 120-123: close the valve and restore the display. -/
def feedClose (s : State) : State :=
  let s := feederServoWrite VALVE_CLOSED_POSITION s
  let s := emit (.serialPrintln "Feeding: Valve closed") s
  let s := emit (.lcdSetCursor 0 0) s
  emit (.lcdPrint "pH:      ") s

/-- The function `feedFish()`: open the valve, hold it open for
`FEEDING_DURATION`, close the valve. -/
def feedFish (s : State) : State :=
  feedClose (elapse FEEDING_DURATION (feedOpen s))

/-! ## `loop()` -/

/-- Lines 128-138: render hour and minute. -/
def showTime (env : Env) (s : State) : State :=
  let s := emit (.lcdSetCursor 11 0) s
  let s := if env.hour < 10 then emit (.lcdPrint "0") s else s
  let s := emit (.lcdPrintNat env.hour) s
  let s := emit (.lcdPrint ":") s
  let s := if env.minute < 10 then emit (.lcdPrint "0") s else s
  emit (.lcdPrintNat env.minute) s

/-- Lines 143-146: announce the manual feed, up to the call of `feedFish()`. -/
def manualAnnounce (s : State) : State :=
  let s := emit (.serialPrintln "Manual feeding requested") s
  let s := emit (.lcdSetCursor 11 1) s
  emit (.lcdPrint "MANUAL") s

/-- Lines 147-149: clear the request flag and reset the automatic-feed timer. -/
def manualClear (s : State) : State :=
  let s := { s with manualFeedRequested := false }
  { s with lastAutoFeedTime := millis s }

/-- Lines 151-153: the settle delay and the ready status. -/
def manualSettle (s : State) : State :=
  let s := elapse 1000 s
  let s := emit (.lcdSetCursor 11 1) s
  emit (.lcdPrint "READY ") s

/-- Lines 147-153: what follows `feedFish()` in the manual branch. -/
def manualFinish (s : State) : State := manualSettle (manualClear s)

/-- Lines 141-154: the manual-feed branch. -/
def manualPhase (s : State) : State :=
  if s.manualFeedRequested then manualFinish (feedFish (manualAnnounce s)) else s

/-- The test of line 158, with `currentMillis = millis()` read at that point. -/
def autoDue (s : State) : Bool :=
  decide (usub (millis s) s.lastAutoFeedTime ≥ autoFeedInterval)

/-- Lines 160-162: announce the automatic feed, up to the call of `feedFish()`. -/
def autoAnnounce (s : State) : State :=
  let s := emit (.serialPrintln "Auto feeding (2-minute interval)") s
  let s := emit (.lcdSetCursor 11 1) s
  emit (.lcdPrint "AUTO  ") s

/-- Lines 164-168: what follows `feedFish()` in the automatic branch. -/
def autoFinish (currentMillis : Nat) (s : State) : State :=
  let s := { s with lastAutoFeedTime := currentMillis }
  let s := elapse 1000 s
  let s := emit (.lcdSetCursor 11 1) s
  emit (.lcdPrint "READY ") s

/-- Lines 157-169: the automatic-feed branch. -/
def autoPhase (s : State) : State :=
  let currentMillis := millis s
  if autoDue s then autoFinish currentMillis (feedFish (autoAnnounce s)) else s

/-- Lines 173-176: present the pH value. -/
def showPH (pH : ℚ) (s : State) : State :=
  let s := emit (.lcdSetCursor 3 0) s
  let s := emit (.lcdPrint "     ") s
  let s := emit (.lcdSetCursor 3 0) s
  emit (.lcdPrintFloat pH 2) s

/-- Lines 191-212: the fan controller. -/
def fanControl (tempC : ℚ) (s : State) : State :=
  if 30.0 ≤ tempC ∧ s.fanRunning = false then
    let s := digitalWrite FAN_PIN true s
    let s := { s with fanRunning := true }
    let s := emit (.serialPrintln "Fans ON") s
    let s := emit (.lcdSetCursor 11 1) s
    if s.manualFeedRequested = false then emit (.lcdPrint "FAN:ON") s else s
  else if tempC ≤ 28.0 ∧ s.fanRunning = true then
    let s := digitalWrite FAN_PIN false s
    let s := { s with fanRunning := false }
    let s := emit (.serialPrintln "Fans OFF") s
    let s := emit (.lcdSetCursor 11 1) s
    if s.manualFeedRequested = false then emit (.lcdPrint "READY ") s else s
  else s

/-- Lines 214-219: the branch taken when the probe is disconnected. -/
def tempError (s : State) : State :=
  let s := emit (.lcdSetCursor 5 1) s
  let s := emit (.lcdPrint "ERROR!") s
  emit (.serialPrintln "Temp read error") s

/-- Lines 182-219: present the temperature and run the fan controller, or
present the error indicator. -/
def tempPhase (disc tempC : ℚ) (s : State) : State :=
  if tempC ≠ disc then
    let s := emit (.lcdSetCursor 5 1) s
    let s := emit (.lcdPrint "     ") s
    let s := emit (.lcdSetCursor 5 1) s
    let s := emit (.lcdPrintFloat tempC 1) s
    let s := emit (.lcdPrint "C") s
    fanControl tempC s
  else tempError s

/-- Lines 222-229: the consolidated status line on the serial port. -/
def statusLine (pH tempC : ℚ) (s : State) : State :=
  let s := emit (.serialPrint "pH: ") s
  let s := emit (.serialPrintFloat pH 2) s
  let s := emit (.serialPrint " | Temp: ") s
  let s := emit (.serialPrintFloat tempC 2) s
  let s := emit (.serialPrint "C | Fan: ") s
  let s := emit (.serialPrint (if s.fanRunning then "ON" else "OFF")) s
  let s := emit (.serialPrint " | pH Alert: ") s
  emit (.serialPrintln (if s.phAlertActive then "ON" else "OFF")) s

/-- The state at the interval check of line 158: after the time display and
the manual branch. -/
def atCheck (env : Env) (s : State) : State := manualPhase (showTime env s)

/-- Lines 171-180: read and present the pH value, then wait for the temperature
conversion.  The result is the pH value and the state in which the
temperature is read. -/
def senseStart (env : Env) (s : State) : ℚ × State :=
  let r := readPH env.adc s
  let s := showPH r.1 r.2
  (r.1, elapse env.conversion s)

/-- Lines 171-231: everything after the feed arbitration. -/
def sensePhase (disc : ℚ) (env : Env) (s : State) : State :=
  let r := senseStart env s
  let s := tempPhase disc env.tempC r.2
  let s := statusLine r.1 env.tempC s
  elapse 750 s

/-- One iteration of `loop()`. -/
def loop (disc : ℚ) (env : Env) (s : State) : State :=
  sensePhase disc env (autoPhase (atCheck env s))

/-- Successive iterations of `loop()`, one per element of `envs`. -/
def run (disc : ℚ) (envs : List Env) (s : State) : State :=
  envs.foldl (fun st env => loop disc env st) s

/-! ## The request flag between two tests -/

/-- How the handler alone can change the request flag and the debounce time stamp
between an earlier state `x` and a later state `y`: either the flag is set
afterwards, or both are as before; and when every pending button edge lies after
the clock of `y`, both are as before and the same edges are pending. -/
def handlerOnly (x y : State) : Prop :=
  x.clock ≤ y.clock ∧
  (y.manualFeedRequested = true ∨
    (y.lastDebounceTime = x.lastDebounceTime ∧
      y.manualFeedRequested = x.manualFeedRequested)) ∧
  ((∀ t ∈ x.button, y.clock < t) →
    y.button = x.button ∧ y.lastDebounceTime = x.lastDebounceTime ∧
      y.manualFeedRequested = x.manualFeedRequested)

/-! ## Example inputs -/

/-- Peripheral inputs of an iteration: 12:34 on the clock, every sample 512,
the given temperature reading and conversion time. -/
def exampleEnv (tempC : ℚ) (conversion : Nat) : Env :=
  { hour := 12, minute := 34, adc := fun _ => 512, tempC := tempC, conversion := conversion }

/-- Inputs of an iteration that lasts 60 s: the conversion blocks for 59150 ms. -/
def dueEnv : Env := exampleEnv 25 59150

/-- The state after power-on, `setup()` and one iteration with inputs `dueEnv`:
the clock stands at 60000 ms and the automatic feed is due. -/
def dueState : State := loop (-127) dueEnv (setupState (boot 0 []))

/-- The state after power-on, `setup()` and two iterations when the button is
pressed 1000 ms and 1800 ms after power-on: the first press has been accepted
and is pending, the second is still to come. -/
def pressState : State :=
  run (-127) [exampleEnv 25 0, exampleEnv 25 0] (setupState (boot 0 [1000, 1800]))

/-- As `pressState`, with the second press 3000 ms after power-on: it falls into
the settle delay that follows the manual feed. -/
def lateState : State :=
  run (-127) [exampleEnv 25 0, exampleEnv 25 0] (setupState (boot 0 [1000, 3000]))

/-- The state after power-on, `setup()` and one iteration that ends at 9000 ms,
the button having been pressed at 5000 ms: a manual request is pending and its
feed will be complete at 10000 ms. -/
def tenState : State := loop (-127) (exampleEnv 25 8150) (setupState (boot 0 [5000]))

/-- The state after power-on and `setup()` with no button press to come. -/
def idleState : State := setupState (boot 0 [])

/-- Ten samples with sum 4096, that is an average voltage of 2.00 V. -/
def twoVoltSamples (i : Nat) : Int := if i < 6 then 410 else 409

/-! ## Observations on the output log -/

/-- Number of feed sequences in a log: how often the valve was opened. -/
def feedCount (l : List Out) : Nat := l.count (.servoWrite VALVE_OPEN_POSITION)

/-- Number of manual feeds announced in a log. -/
def manualCount (l : List Out) : Nat := l.count (.serialPrintln "Manual feeding requested")

/-- Number of automatic feeds announced in a log. -/
def autoCount (l : List Out) : Nat :=
  l.count (.serialPrintln "Auto feeding (2-minute interval)")

/-- The angles written to the servo, oldest first. -/
def servoWrites : List Out → List Int
  | [] => []
  | .servoWrite a :: l => a :: servoWrites l
  | _ :: l => servoWrites l

/-- Whether an output operation belongs to feeding: a servo write or the
announcement of a manual or automatic feed. -/
def isFeedOp : Out → Bool
  | .servoWrite _ => true
  | .serialPrintln t =>
    t == "Manual feeding requested" || t == "Auto feeding (2-minute interval)"
  | _ => false

/-- The feed operations of a log, oldest first. -/
def feedTrace (l : List Out) : List Out := l.filter isFeedOp

/-- The feed operations of one manual feed. -/
def manualTrace : List Out :=
  [.serialPrintln "Manual feeding requested", .servoWrite VALVE_OPEN_POSITION,
   .servoWrite VALVE_CLOSED_POSITION]

/-- The feed operations of one automatic feed. -/
def autoTrace : List Out :=
  [.serialPrintln "Auto feeding (2-minute interval)", .servoWrite VALVE_OPEN_POSITION,
   .servoWrite VALVE_CLOSED_POSITION]


/-! ## Frame lemmas: the interrupt and the passage of time -/

section Frame

variable (s : State) (t ms : Nat) (ts : List Nat)

@[simp] theorem buttonInterrupt_clock : (buttonInterrupt s).clock = s.clock := by
  unfold buttonInterrupt; split <;> rfl
@[simp] theorem buttonInterrupt_button :
    (buttonInterrupt s).button = s.button := by
  unfold buttonInterrupt; split <;> rfl
@[simp] theorem buttonInterrupt_fanRunning :
    (buttonInterrupt s).fanRunning = s.fanRunning := by
  unfold buttonInterrupt; split <;> rfl
@[simp] theorem buttonInterrupt_phAlertActive :
    (buttonInterrupt s).phAlertActive = s.phAlertActive := by
  unfold buttonInterrupt; split <;> rfl
@[simp] theorem buttonInterrupt_lastAutoFeedTime :
    (buttonInterrupt s).lastAutoFeedTime = s.lastAutoFeedTime := by
  unfold buttonInterrupt; split <;> rfl
@[simp] theorem buttonInterrupt_servo :
    (buttonInterrupt s).servo = s.servo := by
  unfold buttonInterrupt; split <;> rfl
@[simp] theorem buttonInterrupt_pinLevel :
    (buttonInterrupt s).pinLevel = s.pinLevel := by
  unfold buttonInterrupt; split <;> rfl
@[simp] theorem buttonInterrupt_log :
    (buttonInterrupt s).log = s.log := by
  unfold buttonInterrupt; split <;> rfl

@[simp] theorem fire_clock : (fire t s).clock = max s.clock t := by simp [fire]
@[simp] theorem fire_button : (fire t s).button = s.button := by simp [fire]
@[simp] theorem fire_fanRunning : (fire t s).fanRunning = s.fanRunning := by simp [fire]
@[simp] theorem fire_phAlertActive : (fire t s).phAlertActive = s.phAlertActive := by simp [fire]
@[simp] theorem fire_lastAutoFeedTime : (fire t s).lastAutoFeedTime = s.lastAutoFeedTime := by simp [fire]
@[simp] theorem fire_servo : (fire t s).servo = s.servo := by simp [fire]
@[simp] theorem fire_pinLevel : (fire t s).pinLevel = s.pinLevel := by simp [fire]
@[simp] theorem fire_log : (fire t s).log = s.log := by simp [fire]

@[simp] theorem presses_nil : presses [] s = s := rfl
@[simp] theorem presses_cons : presses (t :: ts) s = presses ts (fire t s) := rfl

@[simp] theorem presses_button : (presses ts s).button = s.button := by
  induction ts generalizing s with
  | nil => rfl
  | cons t ts ih => simp [ih]
@[simp] theorem presses_fanRunning : (presses ts s).fanRunning = s.fanRunning := by
  induction ts generalizing s with
  | nil => rfl
  | cons t ts ih => simp [ih]
@[simp] theorem presses_phAlertActive : (presses ts s).phAlertActive = s.phAlertActive := by
  induction ts generalizing s with
  | nil => rfl
  | cons t ts ih => simp [ih]
@[simp] theorem presses_lastAutoFeedTime : (presses ts s).lastAutoFeedTime = s.lastAutoFeedTime := by
  induction ts generalizing s with
  | nil => rfl
  | cons t ts ih => simp [ih]
@[simp] theorem presses_servo : (presses ts s).servo = s.servo := by
  induction ts generalizing s with
  | nil => rfl
  | cons t ts ih => simp [ih]
@[simp] theorem presses_pinLevel : (presses ts s).pinLevel = s.pinLevel := by
  induction ts generalizing s with
  | nil => rfl
  | cons t ts ih => simp [ih]
@[simp] theorem presses_log : (presses ts s).log = s.log := by
  induction ts generalizing s with
  | nil => rfl
  | cons t ts ih => simp [ih]

@[simp] theorem elapse_clock : (elapse ms s).clock = s.clock + ms := by simp [elapse]
@[simp] theorem elapse_fanRunning : (elapse ms s).fanRunning = s.fanRunning := by simp [elapse]
@[simp] theorem elapse_phAlertActive : (elapse ms s).phAlertActive = s.phAlertActive := by simp [elapse]
@[simp] theorem elapse_lastAutoFeedTime : (elapse ms s).lastAutoFeedTime = s.lastAutoFeedTime := by simp [elapse]
@[simp] theorem elapse_servo : (elapse ms s).servo = s.servo := by simp [elapse]
@[simp] theorem elapse_pinLevel : (elapse ms s).pinLevel = s.pinLevel := by simp [elapse]
@[simp] theorem elapse_log : (elapse ms s).log = s.log := by simp [elapse]

end Frame

/-! ## Frame lemmas: the phases of `loop()` -/

section Phases

variable (disc pH tempC : ℚ) (env : Env) (adc : Nat → Int) (s : State) (e : Out)

@[simp] theorem emit_log : (emit e s).log = s.log ++ [e] := rfl
@[simp] theorem emit_clock : (emit e s).clock = s.clock := rfl
@[simp] theorem emit_button : (emit e s).button = s.button := rfl
@[simp] theorem emit_fanRunning : (emit e s).fanRunning = s.fanRunning := rfl
@[simp] theorem emit_phAlertActive : (emit e s).phAlertActive = s.phAlertActive := rfl
@[simp] theorem emit_manualFeedRequested :
    (emit e s).manualFeedRequested = s.manualFeedRequested := rfl
@[simp] theorem emit_lastDebounceTime : (emit e s).lastDebounceTime = s.lastDebounceTime := rfl
@[simp] theorem emit_lastAutoFeedTime : (emit e s).lastAutoFeedTime = s.lastAutoFeedTime := rfl
@[simp] theorem emit_servo : (emit e s).servo = s.servo := rfl
@[simp] theorem emit_pinLevel : (emit e s).pinLevel = s.pinLevel := rfl
@[simp] theorem millis_emit : millis (emit e s) = millis s := rfl

attribute [irreducible] emit

@[simp] theorem feedFish_fanRunning : (feedFish s).fanRunning = s.fanRunning := by
  simp [feedFish, feedOpen, feedClose, feederServoWrite]
@[simp] theorem feedFish_pinLevel : (feedFish s).pinLevel = s.pinLevel := by
  simp [feedFish, feedOpen, feedClose, feederServoWrite]
@[simp] theorem feedFish_phAlertActive : (feedFish s).phAlertActive = s.phAlertActive := by
  simp [feedFish, feedOpen, feedClose, feederServoWrite]
@[simp] theorem feedFish_lastAutoFeedTime :
    (feedFish s).lastAutoFeedTime = s.lastAutoFeedTime := by
  simp [feedFish, feedOpen, feedClose, feederServoWrite]
@[simp] theorem feedFish_servo : (feedFish s).servo = VALVE_CLOSED_POSITION := by
  simp [feedFish, feedOpen, feedClose, feederServoWrite]
@[simp] theorem feedFish_clock : (feedFish s).clock = s.clock + FEEDING_DURATION := by
  simp [feedFish, feedOpen, feedClose, feederServoWrite]
theorem feedFish_log : (feedFish s).log = s.log ++
    [.lcdSetCursor 0 0, .lcdPrint "FEEDING...      ", .servoWrite VALVE_OPEN_POSITION,
     .serialPrintln "Feeding: Valve opened", .servoWrite VALVE_CLOSED_POSITION,
     .serialPrintln "Feeding: Valve closed", .lcdSetCursor 0 0, .lcdPrint "pH:      "] := by
  simp [feedFish, feedOpen, feedClose, feederServoWrite]

@[simp] theorem showTime_fanRunning : (showTime env s).fanRunning = s.fanRunning := by
  simp only [showTime]; split_ifs <;> simp
@[simp] theorem showTime_pinLevel : (showTime env s).pinLevel = s.pinLevel := by
  simp only [showTime]; split_ifs <;> simp
@[simp] theorem showTime_clock : (showTime env s).clock = s.clock := by
  simp only [showTime]; split_ifs <;> simp
@[simp] theorem showTime_button : (showTime env s).button = s.button := by
  simp only [showTime]; split_ifs <;> simp
@[simp] theorem showTime_phAlertActive : (showTime env s).phAlertActive = s.phAlertActive := by
  simp only [showTime]; split_ifs <;> simp
@[simp] theorem showTime_manualFeedRequested :
    (showTime env s).manualFeedRequested = s.manualFeedRequested := by
  simp only [showTime]; split_ifs <;> simp
@[simp] theorem showTime_lastDebounceTime :
    (showTime env s).lastDebounceTime = s.lastDebounceTime := by
  simp only [showTime]; split_ifs <;> simp
@[simp] theorem showTime_lastAutoFeedTime :
    (showTime env s).lastAutoFeedTime = s.lastAutoFeedTime := by
  simp only [showTime]; split_ifs <;> simp
@[simp] theorem showTime_servo : (showTime env s).servo = s.servo := by
  simp only [showTime]; split_ifs <;> simp

@[simp] theorem manualPhase_fanRunning : (manualPhase s).fanRunning = s.fanRunning := by
  unfold manualPhase; split <;> simp [manualFinish, manualSettle, manualClear, manualAnnounce]
@[simp] theorem manualPhase_pinLevel : (manualPhase s).pinLevel = s.pinLevel := by
  unfold manualPhase; split <;> simp [manualFinish, manualSettle, manualClear, manualAnnounce]
@[simp] theorem autoPhase_fanRunning : (autoPhase s).fanRunning = s.fanRunning := by
  unfold autoPhase; split <;> simp [autoFinish, autoAnnounce]
@[simp] theorem autoPhase_pinLevel : (autoPhase s).pinLevel = s.pinLevel := by
  unfold autoPhase; split <;> simp [autoFinish, autoAnnounce]
@[simp] theorem atCheck_fanRunning : (atCheck env s).fanRunning = s.fanRunning := by
  simp [atCheck]
@[simp] theorem atCheck_pinLevel : (atCheck env s).pinLevel = s.pinLevel := by
  simp [atCheck]

end Phases

/-! ## The fan controller -/

section Fan

variable (disc pH tempC : ℚ) (env : Env) (s : State)

@[simp] theorem showPH_fanRunning : (showPH pH s).fanRunning = s.fanRunning := by
  simp [showPH]
@[simp] theorem showPH_pinLevel : (showPH pH s).pinLevel = s.pinLevel := by
  simp [showPH]
@[simp] theorem statusLine_fanRunning :
    (statusLine pH tempC s).fanRunning = s.fanRunning := by simp [statusLine]
@[simp] theorem statusLine_pinLevel : (statusLine pH tempC s).pinLevel = s.pinLevel := by
  simp [statusLine]
@[simp] theorem tempError_fanRunning : (tempError s).fanRunning = s.fanRunning := by
  simp [tempError]
@[simp] theorem tempError_pinLevel : (tempError s).pinLevel = s.pinLevel := by
  simp [tempError]

theorem sampleFold_fanRunning (adc : Nat → Int) (l : List Nat) (acc : Int × State) :
    (l.foldl (fun (acc : Int × State) i => (wrapLong (acc.1 + adc i), elapse 10 acc.2))
      acc).2.fanRunning = acc.2.fanRunning := by
  induction l generalizing acc with
  | nil => rfl
  | cons i l ih => simp [ih]

theorem sampleFold_pinLevel (adc : Nat → Int) (l : List Nat) (acc : Int × State) :
    (l.foldl (fun (acc : Int × State) i => (wrapLong (acc.1 + adc i), elapse 10 acc.2))
      acc).2.pinLevel = acc.2.pinLevel := by
  induction l generalizing acc with
  | nil => rfl
  | cons i l ih => simp [ih]

@[simp] theorem senseStart_fanRunning : (senseStart env s).2.fanRunning = s.fanRunning := by
  simp [senseStart, readPH, sampleLoop, sampleFold_fanRunning]
@[simp] theorem senseStart_pinLevel : (senseStart env s).2.pinLevel = s.pinLevel := by
  simp [senseStart, readPH, sampleLoop, sampleFold_pinLevel]

/-- The fan flag after the fan controller, as a function of the reading and the flag. -/
theorem fanControl_fanRunning :
    (fanControl tempC s).fanRunning =
      (if s.fanRunning = false ∧ 30 ≤ tempC then true
       else if s.fanRunning = true ∧ tempC ≤ 28 then false else s.fanRunning) := by
  unfold fanControl
  cases hf : s.fanRunning <;> by_cases h30 : (30 : ℚ) ≤ tempC <;>
    by_cases h28 : tempC ≤ (28 : ℚ) <;> norm_num [hf, h30, h28, digitalWrite]
  all_goals (split_ifs <;> simp)

theorem tempPhase_fanRunning :
    (tempPhase disc tempC s).fanRunning =
      (if tempC ≠ disc then
        (if s.fanRunning = false ∧ 30 ≤ tempC then true
         else if s.fanRunning = true ∧ tempC ≤ 28 then false else s.fanRunning)
       else s.fanRunning) := by
  unfold tempPhase
  by_cases hv : tempC = disc
  · simp [hv]
  · rw [if_pos hv, if_pos hv, fanControl_fanRunning]
    simp only [emit_fanRunning]
    with_unfolding_all rfl

theorem loop_fanRunning :
    (loop disc env s).fanRunning =
      (if env.tempC ≠ disc then
        (if s.fanRunning = false ∧ 30 ≤ env.tempC then true
         else if s.fanRunning = true ∧ env.tempC ≤ 28 then false else s.fanRunning)
       else s.fanRunning) := by
  simp only [loop, sensePhase, elapse_fanRunning, statusLine_fanRunning, tempPhase_fanRunning,
    senseStart_fanRunning, autoPhase_fanRunning, atCheck_fanRunning]

end Fan

section FanClaims

variable (disc pH tempC : ℚ) (env : Env) (s : State)

theorem statusLine_log : (statusLine pH tempC s).log = s.log ++
    [.serialPrint "pH: ", .serialPrintFloat pH 2, .serialPrint " | Temp: ",
     .serialPrintFloat tempC 2, .serialPrint "C | Fan: ",
     .serialPrint (if s.fanRunning then "ON" else "OFF"), .serialPrint " | pH Alert: ",
     .serialPrintln (if s.phAlertActive then "ON" else "OFF")] := by
  cases hf : s.fanRunning <;> cases hp : s.phAlertActive <;> simp [statusLine, hf, hp]

theorem tempError_log : (tempError s).log = s.log ++
    [.lcdSetCursor 5 1, .lcdPrint "ERROR!", .serialPrintln "Temp read error"] := by
  simp [tempError]

@[simp] theorem tempError_phAlertActive : (tempError s).phAlertActive = s.phAlertActive := by
  simp [tempError]

theorem tempPhase_disconnected : tempPhase disc disc s = tempError s := by
  simp [tempPhase]

/-- A split of a list at one of its elements, unfolded at the head. -/
theorem exists_split_cons {α : Type} (P : α → Prop) (Q : List α → Prop) (a : α) (l : List α) :
    (∃ l1 x l2, a :: l = l1 ++ x :: l2 ∧ P x ∧ Q l2) ↔
      (P a ∧ Q l) ∨ ∃ l1 x l2, l = l1 ++ x :: l2 ∧ P x ∧ Q l2 := by
  constructor
  · rintro ⟨l1, x, l2, h, hP, hQ⟩
    cases l1 with
    | nil =>
      simp only [List.nil_append, List.cons.injEq] at h
      obtain ⟨rfl, rfl⟩ := h
      exact Or.inl ⟨hP, hQ⟩
    | cons y l1 =>
      simp only [List.cons_append, List.cons.injEq] at h
      exact Or.inr ⟨l1, x, l2, h.2, hP, hQ⟩
  · rintro (⟨hP, hQ⟩ | ⟨l1, x, l2, h, hP, hQ⟩)
    · exact ⟨[], a, l, rfl, hP, hQ⟩
    · exact ⟨a :: l1, x, l2, by simp [h], hP, hQ⟩

@[simp] theorem run_nil : run disc [] s = s := rfl
@[simp] theorem run_cons (envs : List Env) :
    run disc (env :: envs) s = run disc envs (loop disc env s) := rfl

/-- The fan flag after one iteration is set exactly when the reading is valid and at
least 30, or the flag was set and the reading is not a valid one at or below 28. -/
theorem loop_fanRunning_iff :
    (loop disc env s).fanRunning = true ↔
      (env.tempC ≠ disc ∧ 30 ≤ env.tempC) ∨
        (s.fanRunning = true ∧ (env.tempC ≠ disc → ¬ env.tempC ≤ 28)) := by
  rw [loop_fanRunning]
  by_cases hv : env.tempC = disc
  · simp [hv]
  · cases hf : s.fanRunning <;> by_cases h30 : (30 : ℚ) ≤ env.tempC <;>
      by_cases h28 : env.tempC ≤ (28 : ℚ) <;> simp [hv, hf, h30, h28]
    linarith

/-- The fan flag after a run from any state. -/
theorem run_fanRunning_iff (envs : List Env) :
    (run disc envs s).fanRunning = true ↔
      (∃ l1 e l2, envs = l1 ++ e :: l2 ∧ (e.tempC ≠ disc ∧ 30 ≤ e.tempC) ∧
          ∀ x ∈ l2, x.tempC ≠ disc → ¬ x.tempC ≤ 28) ∨
        (s.fanRunning = true ∧ ∀ x ∈ envs, x.tempC ≠ disc → ¬ x.tempC ≤ 28) := by
  induction envs generalizing s with
  | nil => simp
  | cons e es ih =>
    rw [run_cons, ih,
      exists_split_cons (fun e : Env => e.tempC ≠ disc ∧ 30 ≤ e.tempC)
        (fun l : List Env => ∀ x ∈ l, x.tempC ≠ disc → ¬ x.tempC ≤ 28),
      loop_fanRunning_iff, List.forall_mem_cons]
    have h : (30 : ℚ) ≤ e.tempC → ¬ e.tempC ≤ 28 := fun h30 h28 => by linarith
    have key : ∀ A B : Prop,
        (A ∨ ((e.tempC ≠ disc ∧ 30 ≤ e.tempC) ∨
            (s.fanRunning = true ∧ (e.tempC ≠ disc → ¬ e.tempC ≤ 28))) ∧ B) ↔
          (((e.tempC ≠ disc ∧ 30 ≤ e.tempC) ∧ B) ∨ A) ∨
            (s.fanRunning = true ∧ (e.tempC ≠ disc → ¬ e.tempC ≤ 28) ∧ B) := by
      intro A B
      tauto
    exact key _ _

/-- C1: starting with the fan off, after any sequence of iterations of `loop()`
the fan is on if and only if some valid reading of the sequence is at least 30
and no later valid reading is at most 28; a reading strictly between 28 and 30
never changes the fan flag. -/
theorem run_fan_hysteresis (disc : ℚ) (s : State) (envs : List Env)
    (h0 : s.fanRunning = false) :
    ((run disc envs s).fanRunning = true ↔
      ∃ l1 e l2, envs = l1 ++ e :: l2 ∧ (e.tempC ≠ disc ∧ 30 ≤ e.tempC) ∧
        ∀ x ∈ l2, x.tempC ≠ disc → ¬ x.tempC ≤ 28) ∧
    (∀ (env1 : Env) (s1 : State), 28 < env1.tempC → env1.tempC < 30 →
      (loop disc env1 s1).fanRunning = s1.fanRunning) := by
  refine ⟨?_, ?_⟩
  · rw [run_fanRunning_iff]
    simp [h0]
  · intro env1 s1 h28 h30
    rw [loop_fanRunning]
    have a : ¬ (30 : ℚ) ≤ env1.tempC := not_le.mpr h30
    have b : ¬ env1.tempC ≤ (28 : ℚ) := not_le.mpr h28
    simp [a, b]

/-- C2: one pass of the fan logic on a valid reading switches the fan on when it
was off and the reading is at least 30, switches it off when it was on and the
reading is at most 28, and leaves it alone otherwise; the readings 30.1, 29 and
28 applied in order from off give on, on, off. -/
theorem loop_fan_transition (disc : ℚ) (env : Env) (s : State) (hv : env.tempC ≠ disc)
    (h1 : disc ≠ 30.1) (h2 : disc ≠ 29.0) (h3 : disc ≠ 28.0) :
    (loop disc env s).fanRunning =
      (if s.fanRunning = false ∧ 30.0 ≤ env.tempC then true
       else if s.fanRunning = true ∧ env.tempC ≤ 28.0 then false else s.fanRunning) ∧
    (let off : State := { s with fanRunning := false }
     let r1 : Env := { env with tempC := 30.1 }
     let r2 : Env := { env with tempC := 29.0 }
     let r3 : Env := { env with tempC := 28.0 }
     (run disc [r1] off).fanRunning = true ∧
     (run disc [r1, r2] off).fanRunning = true ∧
     (run disc [r1, r2, r3] off).fanRunning = false) := by
  refine ⟨?_, ?_⟩
  · rw [loop_fanRunning, if_pos hv]
    norm_num
  · have k1 : ¬ (301 / 10 : ℚ) = disc := fun h => h1 (by rw [← h]; norm_num)
    have k2 : ¬ (29 : ℚ) = disc := fun h => h2 (by rw [← h]; norm_num)
    have k3 : ¬ (28 : ℚ) = disc := fun h => h3 (by rw [← h]; norm_num)
    simp only [run_cons, run_nil, loop_fanRunning]
    norm_num [k1, k2, k3]

/-- C3: when the probe reports the disconnect sentinel, the iteration leaves the
fan flag and the level of the fan pin as they were, and from the temperature
read on its output is exactly the error indicator followed by the status line:
no temperature is displayed and the fan pin is not written. -/
theorem loop_disconnected (disc : ℚ) (env : Env) (s : State) (hd : env.tempC = disc) :
    (loop disc env s).fanRunning = s.fanRunning ∧
    (loop disc env s).pinLevel FAN_PIN = s.pinLevel FAN_PIN ∧
    (let r := senseStart env (autoPhase (atCheck env s))
     tempPhase disc env.tempC r.2 = tempError r.2 ∧
     (loop disc env s).log = r.2.log ++
      [.lcdSetCursor 5 1, .lcdPrint "ERROR!", .serialPrintln "Temp read error",
       .serialPrint "pH: ", .serialPrintFloat r.1 2, .serialPrint " | Temp: ",
       .serialPrintFloat disc 2, .serialPrint "C | Fan: ",
       .serialPrint (if s.fanRunning then "ON" else "OFF"), .serialPrint " | pH Alert: ",
       .serialPrintln (if r.2.phAlertActive then "ON" else "OFF")]) := by
  subst hd
  refine ⟨?_, ?_, ?_, ?_⟩
  · rw [loop_fanRunning]; simp
  · simp [loop, sensePhase, tempPhase_disconnected]
  · exact tempPhase_disconnected _ _
  · simp [loop, sensePhase, tempPhase_disconnected, statusLine_log, tempError_log]

end FanClaims

/-! ## The debounced interrupt -/

section Debounce

/-- On a clock that has not gone backwards, unsigned subtraction of two clock
readings never exceeds the time that has really passed. -/
theorem usub_millis_le (a t : Nat) (h : a ≤ t) : usub (t % 2 ^ 32) (a % 2 ^ 32) ≤ t - a := by
  unfold usub
  norm_num
  omega

/-- Without wrap-around, unsigned subtraction of two clock readings is exact. -/
theorem usub_exact (a t : Nat) (h : a ≤ t) (ht : t < 2 ^ 32) : usub t a = t - a := by
  unfold usub
  norm_num at ht ⊢
  omega

theorem buttonInterrupt_accept (s : State) (h : debounceOk s = true) :
    buttonInterrupt s =
      { s with manualFeedRequested := true, lastDebounceTime := millis s } := by
  simp [buttonInterrupt, h]

theorem buttonInterrupt_reject (s : State) (h : debounceOk s = false) :
    buttonInterrupt s = s := by
  simp [buttonInterrupt, h]

/-- Every trigger accepted after a trigger accepted at time `a` comes more than
`debounceDelay` later. -/
theorem acceptedTimes_gt (ts : List Nat) (s : State) (a : Nat)
    (ha : s.lastDebounceTime = a % 2 ^ 32) (hac : a ≤ s.clock)
    (hs : ts.Pairwise (fun x y => x ≤ y)) (hc : ∀ t ∈ ts, s.clock ≤ t) :
    ∀ b ∈ acceptedTimes ts s, a + debounceDelay < b := by
  induction ts generalizing s a with
  | nil => simp [acceptedTimes]
  | cons t ts ih =>
    have hst : s.clock ≤ t := hc t (List.mem_cons_self _ _)
    have hmax : max s.clock t = t := max_eq_right hst
    rw [List.pairwise_cons] at hs
    intro b hb
    simp only [acceptedTimes, hmax] at hb
    by_cases hok : debounceOk { s with clock := t } = true
    · rw [if_pos hok, List.mem_cons] at hb
      have hgt : a + debounceDelay < t := by
        have h1 : usub (t % 2 ^ 32) (a % 2 ^ 32) > debounceDelay := by
          simpa [debounceOk, millis, ha] using hok
        have h2 := usub_millis_le a t (le_trans hac hst)
        omega
      rcases hb with rfl | hb
      · exact hgt
      · have := ih (buttonInterrupt { s with clock := t }) t
          (by rw [buttonInterrupt_accept _ hok]; rfl) (by simp) hs.2
          (by intro x hx; simpa using hs.1 x hx) b hb
        omega
    · rw [if_neg hok] at hb
      rw [Bool.not_eq_true] at hok
      rw [buttonInterrupt_reject _ hok] at hb
      exact ih { s with clock := t } a ha (le_trans hac hst) hs.2
        (by intro x hx; simpa using hs.1 x hx) b hb

theorem acceptedTimes_pairwise (ts : List Nat) (s : State)
    (hs : ts.Pairwise (fun x y => x ≤ y)) (hc : ∀ t ∈ ts, s.clock ≤ t) :
    (acceptedTimes ts s).Pairwise (fun a b => a + debounceDelay < b) := by
  induction ts generalizing s with
  | nil => simp [acceptedTimes]
  | cons t ts ih =>
    have hst : s.clock ≤ t := hc t (List.mem_cons_self _ _)
    have hmax : max s.clock t = t := max_eq_right hst
    rw [List.pairwise_cons] at hs
    have hc2 : ∀ x ∈ ts, (buttonInterrupt { s with clock := t }).clock ≤ x := by
      intro x hx; simpa using hs.1 x hx
    simp only [acceptedTimes, hmax]
    by_cases hok : debounceOk { s with clock := t } = true
    · rw [if_pos hok, List.pairwise_cons]
      refine ⟨?_, ih _ hs.2 hc2⟩
      exact acceptedTimes_gt ts _ t (by rw [buttonInterrupt_accept _ hok]; rfl) (by simp)
        hs.2 hc2
    · rw [if_neg hok]
      exact ih _ hs.2 hc2

theorem acceptedTimes_sublist (ts : List Nat) (s : State) (hc : ∀ t ∈ ts, s.clock ≤ t)
    (hs : ts.Pairwise (fun x y => x ≤ y)) : (acceptedTimes ts s).Sublist ts := by
  induction ts generalizing s with
  | nil => simp [acceptedTimes]
  | cons t ts ih =>
    have hst : s.clock ≤ t := hc t (List.mem_cons_self _ _)
    have hmax : max s.clock t = t := max_eq_right hst
    rw [List.pairwise_cons] at hs
    have hc2 : ∀ x ∈ ts, (buttonInterrupt { s with clock := t }).clock ≤ x := by
      intro x hx; simpa using hs.1 x hx
    simp only [acceptedTimes, hmax]
    split
    · exact (ih _ hc2 hs.2).cons₂ t
    · exact (ih _ hc2 hs.2).cons t

theorem buttonInterrupt_manualFeedRequested (s : State) :
    (buttonInterrupt s).manualFeedRequested = (s.manualFeedRequested || debounceOk s) := by
  unfold buttonInterrupt
  cases h : debounceOk s <;> simp

theorem presses_manualFeedRequested (ts : List Nat) (s : State) :
    (presses ts s).manualFeedRequested = true ↔
      s.manualFeedRequested = true ∨ acceptedTimes ts s ≠ [] := by
  induction ts generalizing s with
  | nil => simp [acceptedTimes]
  | cons t ts ih =>
    rw [presses_cons, ih, fire, buttonInterrupt_manualFeedRequested]
    simp only [acceptedTimes]
    cases hok : debounceOk { s with clock := max s.clock t } <;> simp

/-- Among times that lie pairwise more than `debounceDelay` apart, at most one
falls into a window of that length. -/
theorem window_length_le_one (l : List Nat)
    (h : l.Pairwise (fun a b => a + debounceDelay < b)) (w : Nat) :
    (l.filter (fun t => decide (w ≤ t ∧ t ≤ w + debounceDelay))).length ≤ 1 := by
  induction l with
  | nil => simp
  | cons a l ih =>
    rw [List.pairwise_cons] at h
    by_cases ha : w ≤ a ∧ a ≤ w + debounceDelay
    · have hnil : l.filter (fun t => decide (w ≤ t ∧ t ≤ w + debounceDelay)) = [] := by
        rw [List.filter_eq_nil_iff]
        intro b hb
        have := h.1 b hb
        simp only [decide_eq_true_eq, not_and, not_le]
        intro _
        omega
      have hd : decide (w ≤ a ∧ a ≤ w + debounceDelay) = true := decide_eq_true ha
      rw [List.filter_cons, if_pos hd, hnil]
      simp
    · simp only [List.filter_cons, ha, decide_False, Bool.false_eq_true, if_false]
      exact ih h.2

/-- C4: when the handler is invoked at a non-decreasing sequence of times, the
accepted invocations are among the given times, the flag is set exactly when it
was set before or an invocation is accepted, any two accepted invocations are
more than (hence at least) `debounceDelay` = 500 ms apart, and at most one of
them falls into any window of 500 ms. -/
theorem debounce_spacing (s : State) (ts : List Nat)
    (hs : ts.Pairwise (fun x y => x ≤ y)) (hc : ∀ t ∈ ts, s.clock ≤ t) :
    debounceDelay = 500 ∧
    (acceptedTimes ts s).Sublist ts ∧
    ((presses ts s).manualFeedRequested = true ↔
      s.manualFeedRequested = true ∨ acceptedTimes ts s ≠ []) ∧
    (acceptedTimes ts s).Pairwise (fun a b => a + debounceDelay < b) ∧
    (acceptedTimes ts s).Pairwise (fun a b => a + 500 ≤ b) ∧
    ∀ w, ((acceptedTimes ts s).filter
      (fun t => decide (w ≤ t ∧ t ≤ w + debounceDelay))).length ≤ 1 :=
  ⟨rfl, acceptedTimes_sublist ts s hc hs, presses_manualFeedRequested ts s,
    acceptedTimes_pairwise ts s hs hc,
    (acceptedTimes_pairwise ts s hs hc).imp (fun h => by unfold debounceDelay at h; omega),
    window_length_le_one _ (acceptedTimes_pairwise ts s hs hc)⟩

end Debounce

/-! ## Feeding: what each phase does to the clock, the timer and the feed trace -/

section Feeding

variable (disc pH tempC : ℚ) (env : Env) (adc : Nat → Int) (s : State) (e : Out)

/-- A quantity that a delay of 10 ms does not change is not changed by the
sampling loop. -/
theorem sampleFold_frame {α : Type} (f : State → α) (hf : ∀ s, f (elapse 10 s) = f s)
    (l : List Nat) (acc : Int × State) :
    f (l.foldl (fun (acc : Int × State) i => (wrapLong (acc.1 + adc i), elapse 10 acc.2))
      acc).2 = f acc.2 := by
  induction l generalizing acc with
  | nil => rfl
  | cons i l ih => simp [ih, hf]

theorem sampleFold_clock (l : List Nat) (acc : Int × State) :
    (l.foldl (fun (acc : Int × State) i => (wrapLong (acc.1 + adc i), elapse 10 acc.2))
      acc).2.clock = acc.2.clock + 10 * l.length := by
  induction l generalizing acc with
  | nil => rfl
  | cons i l ih => simp [ih]; omega

@[simp] theorem readPH_log : (readPH adc s).2.log = s.log := by
  simp only [readPH, sampleLoop]
  exact sampleFold_frame adc (fun s => s.log) (fun s => elapse_log s 10) _ _
@[simp] theorem readPH_servo : (readPH adc s).2.servo = s.servo := by
  simp only [readPH, sampleLoop]
  exact sampleFold_frame adc (fun s => s.servo) (fun s => elapse_servo s 10) _ _
@[simp] theorem readPH_lastAutoFeedTime :
    (readPH adc s).2.lastAutoFeedTime = s.lastAutoFeedTime := by
  simp only [readPH, sampleLoop]
  exact sampleFold_frame adc (fun s => s.lastAutoFeedTime)
    (fun s => elapse_lastAutoFeedTime s 10) _ _
@[simp] theorem readPH_phAlertActive : (readPH adc s).2.phAlertActive = s.phAlertActive := by
  simp only [readPH, sampleLoop]
  exact sampleFold_frame adc (fun s => s.phAlertActive) (fun s => elapse_phAlertActive s 10) _ _
@[simp] theorem readPH_clock : (readPH adc s).2.clock = s.clock + 100 := by
  simp [readPH, sampleLoop, sampleFold_clock, SAMPLES]

/-! ### The feed trace -/

@[simp] theorem feedTrace_append (l1 l2 : List Out) :
    feedTrace (l1 ++ l2) = feedTrace l1 ++ feedTrace l2 := by
  simp [feedTrace]

theorem feedCount_eq (l : List Out) :
    feedCount l = (feedTrace l).count (.servoWrite VALVE_OPEN_POSITION) := by
  unfold feedCount feedTrace
  rw [List.count_filter]
  rfl

theorem manualCount_eq (l : List Out) :
    manualCount l = (feedTrace l).count (.serialPrintln "Manual feeding requested") := by
  unfold manualCount feedTrace
  rw [List.count_filter]
  simp [isFeedOp]

theorem autoCount_eq (l : List Out) :
    autoCount l = (feedTrace l).count (.serialPrintln "Auto feeding (2-minute interval)") := by
  unfold autoCount feedTrace
  rw [List.count_filter]
  simp [isFeedOp]

theorem servoWrites_append (l1 l2 : List Out) :
    servoWrites (l1 ++ l2) = servoWrites l1 ++ servoWrites l2 := by
  induction l1 with
  | nil => rfl
  | cons a l ih => cases a <;> simp [servoWrites, ih]

theorem servoWrites_eq (l : List Out) : servoWrites l = servoWrites (feedTrace l) := by
  induction l with
  | nil => rfl
  | cons a l ih =>
    cases a <;> simp [servoWrites, feedTrace, List.filter_cons, isFeedOp, ih]
    all_goals (split <;> simp [servoWrites, feedTrace, ih])

theorem feedFish_feedTrace : feedTrace (feedFish s).log = feedTrace s.log ++
    [.servoWrite VALVE_OPEN_POSITION, .servoWrite VALVE_CLOSED_POSITION] := by
  rw [feedFish_log, feedTrace_append]
  simp [feedTrace, isFeedOp, List.filter_cons]

@[simp] theorem showTime_feedTrace : feedTrace (showTime env s).log = feedTrace s.log := by
  simp only [showTime]
  split_ifs <;> simp [feedTrace, isFeedOp, List.filter_cons]

end Feeding

section Arbitration

variable (disc pH tempC : ℚ) (env : Env) (s : State)

/-! ### The manual branch -/

theorem manualPhase_pos (h : s.manualFeedRequested = true) :
    manualPhase s = manualSettle (manualClear (feedFish (manualAnnounce s))) := by
  simp [manualPhase, manualFinish, h]

theorem manualPhase_neg (h : s.manualFeedRequested = false) : manualPhase s = s := by
  simp [manualPhase, h]

theorem manualPhase_clock :
    (manualPhase s).clock = s.clock + (if s.manualFeedRequested then 2000 else 0) := by
  cases h : s.manualFeedRequested
  · simp [manualPhase_neg, h]
  · simp [manualPhase_pos, h, manualSettle, manualClear, manualAnnounce, FEEDING_DURATION]

theorem manualPhase_lastAutoFeedTime :
    (manualPhase s).lastAutoFeedTime =
      (if s.manualFeedRequested then millis (feedFish (manualAnnounce s))
       else s.lastAutoFeedTime) := by
  cases h : s.manualFeedRequested
  · simp [manualPhase_neg, h]
  · simp [manualPhase_pos, h, manualSettle, manualClear, millis]

theorem millis_feedFish : millis (feedFish s) = (s.clock + FEEDING_DURATION) % 2 ^ 32 := by
  simp [millis]

theorem manualPhase_servo :
    (manualPhase s).servo = (if s.manualFeedRequested then VALVE_CLOSED_POSITION else s.servo) := by
  cases h : s.manualFeedRequested
  · simp [manualPhase_neg, h]
  · simp [manualPhase_pos, h, manualSettle, manualClear]

theorem manualPhase_feedTrace :
    feedTrace (manualPhase s).log =
      feedTrace s.log ++ (if s.manualFeedRequested then manualTrace else []) := by
  cases h : s.manualFeedRequested
  · simp [manualPhase_neg, h]
  · simp [manualPhase_pos, h, manualSettle, manualClear, feedFish_feedTrace, manualAnnounce,
      manualTrace]
    simp [feedTrace, isFeedOp, List.filter_cons]

/-- In the iteration of a manual feed the interval test fails: one second after
the timer was reset the interval has not elapsed. -/
theorem autoDue_manualPhase (h : s.manualFeedRequested = true) :
    autoDue (manualPhase s) = false := by
  simp only [autoDue, millis, manualPhase_clock, manualPhase_lastAutoFeedTime, h, if_true,
    feedFish_clock, usub, autoFeedInterval, FEEDING_DURATION]
  simp [manualAnnounce]
  omega

/-! ### The automatic branch -/

theorem autoPhase_pos (h : autoDue s = true) :
    autoPhase s = autoFinish (millis s) (feedFish (autoAnnounce s)) := by
  simp [autoPhase, h]

theorem autoPhase_neg (h : autoDue s = false) : autoPhase s = s := by
  simp [autoPhase, h]

theorem autoPhase_clock :
    (autoPhase s).clock = s.clock + (if autoDue s then 2000 else 0) := by
  cases h : autoDue s
  · simp [autoPhase_neg, h]
  · simp [autoPhase_pos, h, autoFinish, autoAnnounce, FEEDING_DURATION]

theorem autoPhase_lastAutoFeedTime :
    (autoPhase s).lastAutoFeedTime = (if autoDue s then millis s else s.lastAutoFeedTime) := by
  cases h : autoDue s
  · simp [autoPhase_neg, h]
  · simp [autoPhase_pos, h, autoFinish]

theorem autoPhase_servo :
    (autoPhase s).servo = (if autoDue s then VALVE_CLOSED_POSITION else s.servo) := by
  cases h : autoDue s
  · simp [autoPhase_neg, h]
  · simp [autoPhase_pos, h, autoFinish]

theorem autoPhase_feedTrace :
    feedTrace (autoPhase s).log =
      feedTrace s.log ++ (if autoDue s then autoTrace else []) := by
  cases h : autoDue s
  · simp [autoPhase_neg, h]
  · simp [autoPhase_pos, h, autoFinish, feedFish_feedTrace, autoAnnounce, autoTrace]
    simp [feedTrace, isFeedOp, List.filter_cons]

@[simp] theorem autoDue_showTime : autoDue (showTime env s) = autoDue s := by
  simp [autoDue, millis]

/-! ### The rest of the iteration -/

@[simp] theorem fanControl_servo : (fanControl tempC s).servo = s.servo := by
  unfold fanControl
  split_ifs <;> simp only [digitalWrite] <;> (try split_ifs) <;> simp
@[simp] theorem fanControl_clock : (fanControl tempC s).clock = s.clock := by
  unfold fanControl
  split_ifs <;> simp only [digitalWrite] <;> (try split_ifs) <;> simp
@[simp] theorem fanControl_lastAutoFeedTime :
    (fanControl tempC s).lastAutoFeedTime = s.lastAutoFeedTime := by
  unfold fanControl
  split_ifs <;> simp only [digitalWrite] <;> (try split_ifs) <;> simp
@[simp] theorem fanControl_feedTrace : feedTrace (fanControl tempC s).log = feedTrace s.log := by
  unfold fanControl
  split_ifs <;> simp only [digitalWrite] <;> (try split_ifs) <;>
    simp [feedTrace, isFeedOp, List.filter_cons]

@[simp] theorem tempPhase_servo : (tempPhase disc tempC s).servo = s.servo := by
  unfold tempPhase
  split_ifs <;> simp [tempError]
@[simp] theorem tempPhase_clock : (tempPhase disc tempC s).clock = s.clock := by
  unfold tempPhase
  split_ifs <;> simp [tempError]
@[simp] theorem tempPhase_lastAutoFeedTime :
    (tempPhase disc tempC s).lastAutoFeedTime = s.lastAutoFeedTime := by
  unfold tempPhase
  split_ifs <;> simp [tempError]
@[simp] theorem tempPhase_feedTrace :
    feedTrace (tempPhase disc tempC s).log = feedTrace s.log := by
  unfold tempPhase
  split_ifs <;> simp [tempError] <;> simp [feedTrace, isFeedOp, List.filter_cons]

@[simp] theorem statusLine_servo : (statusLine pH tempC s).servo = s.servo := by
  simp [statusLine]
@[simp] theorem statusLine_clock : (statusLine pH tempC s).clock = s.clock := by
  simp [statusLine]
@[simp] theorem statusLine_lastAutoFeedTime :
    (statusLine pH tempC s).lastAutoFeedTime = s.lastAutoFeedTime := by
  simp [statusLine]
@[simp] theorem statusLine_feedTrace :
    feedTrace (statusLine pH tempC s).log = feedTrace s.log := by
  rw [statusLine_log, feedTrace_append]
  cases s.fanRunning <;> cases s.phAlertActive <;>
    simp [feedTrace, isFeedOp, List.filter_cons]

@[simp] theorem sensePhase_servo : (sensePhase disc env s).servo = s.servo := by
  simp [sensePhase, senseStart, showPH]
@[simp] theorem sensePhase_clock :
    (sensePhase disc env s).clock = s.clock + 100 + env.conversion + 750 := by
  simp [sensePhase, senseStart, showPH]
@[simp] theorem sensePhase_lastAutoFeedTime :
    (sensePhase disc env s).lastAutoFeedTime = s.lastAutoFeedTime := by
  simp [sensePhase, senseStart, showPH]
@[simp] theorem sensePhase_feedTrace :
    feedTrace (sensePhase disc env s).log = feedTrace s.log := by
  simp [sensePhase, senseStart, showPH]
  simp [feedTrace, isFeedOp, List.filter_cons]

/-! ### One iteration -/

theorem atCheck_clock :
    (atCheck env s).clock = s.clock + (if s.manualFeedRequested then 2000 else 0) := by
  simp [atCheck, manualPhase_clock]

theorem autoDue_atCheck :
    autoDue (atCheck env s) = (!s.manualFeedRequested && autoDue s) := by
  cases h : s.manualFeedRequested
  · simp [atCheck, manualPhase_neg, h]
  · simp [atCheck, autoDue_manualPhase, h]

theorem loop_feedTrace :
    feedTrace (loop disc env s).log = feedTrace s.log ++
      (if s.manualFeedRequested then manualTrace else if autoDue s then autoTrace else []) := by
  simp only [loop, sensePhase_feedTrace, autoPhase_feedTrace, autoDue_atCheck]
  simp only [atCheck, manualPhase_feedTrace, showTime_feedTrace, showTime_manualFeedRequested]
  cases s.manualFeedRequested <;> cases autoDue s <;> simp

theorem loop_lastAutoFeedTime :
    (loop disc env s).lastAutoFeedTime =
      (if s.manualFeedRequested then (s.clock + FEEDING_DURATION) % 2 ^ 32
       else if autoDue s then s.clock % 2 ^ 32 else s.lastAutoFeedTime) := by
  simp only [loop, sensePhase_lastAutoFeedTime, autoPhase_lastAutoFeedTime, autoDue_atCheck]
  cases h : s.manualFeedRequested
  · cases h2 : autoDue s <;> simp [atCheck, manualPhase_neg, h, millis]
  · simp [atCheck, manualPhase_lastAutoFeedTime, h, millis, manualAnnounce]

theorem loop_clock :
    (loop disc env s).clock = s.clock +
      (if s.manualFeedRequested then 2000 else if autoDue s then 2000 else 0) +
      100 + env.conversion + 750 := by
  simp only [loop, sensePhase_clock, autoPhase_clock, autoDue_atCheck, atCheck_clock]
  cases s.manualFeedRequested <;> cases autoDue s <;> simp

theorem loop_servo :
    (loop disc env s).servo =
      (if s.manualFeedRequested = true ∨ autoDue s = true then VALVE_CLOSED_POSITION
       else s.servo) := by
  simp only [loop, sensePhase_servo, autoPhase_servo, autoDue_atCheck]
  cases h : s.manualFeedRequested
  · cases h2 : autoDue s <;> simp [atCheck, manualPhase_neg, h]
  · simp [atCheck, manualPhase_servo, h]

end Arbitration

/-! ## The request flag is only cleared by the manual branch -/

section Flag

variable (disc pH tempC : ℚ) (env : Env) (s : State)

theorem handlerOnly_refl : handlerOnly s s :=
  ⟨le_refl _, Or.inr ⟨rfl, rfl⟩, fun _ => ⟨rfl, rfl, rfl⟩⟩

theorem handlerOnly_trans {x y z : State} (h1 : handlerOnly x y) (h2 : handlerOnly y z) :
    handlerOnly x z := by
  obtain ⟨c1, a1, b1⟩ := h1
  obtain ⟨c2, a2, b2⟩ := h2
  refine ⟨le_trans c1 c2, ?_, ?_⟩
  · rcases a2 with h | ⟨hl, hf⟩
    · exact Or.inl h
    · rcases a1 with h | ⟨hl1, hf1⟩
      · exact Or.inl (hf.trans h)
      · exact Or.inr ⟨hl.trans hl1, hf.trans hf1⟩
  · intro hx
    obtain ⟨hb, hl, hf⟩ := b1 (fun t ht => lt_of_le_of_lt c2 (hx t ht))
    obtain ⟨hb2, hl2, hf2⟩ := b2 (fun t ht => hx t (hb ▸ ht))
    exact ⟨hb2.trans hb, hl2.trans hl, hf2.trans hf⟩

/-- A step that leaves the flag, the time stamp and the pending edges alone. -/
theorem handlerOnly_of_eq {x y : State} (hc : y.clock = x.clock) (hb : y.button = x.button)
    (hl : y.lastDebounceTime = x.lastDebounceTime)
    (hf : y.manualFeedRequested = x.manualFeedRequested) : handlerOnly x y :=
  ⟨le_of_eq hc.symm, Or.inr ⟨hl, hf⟩, fun _ => ⟨hb, hl, hf⟩⟩

theorem presses_kept (ts : List Nat) :
    (presses ts s).manualFeedRequested = true ∨
      ((presses ts s).lastDebounceTime = s.lastDebounceTime ∧
        (presses ts s).manualFeedRequested = s.manualFeedRequested) := by
  induction ts generalizing s with
  | nil => exact Or.inr ⟨rfl, rfl⟩
  | cons t ts ih =>
    rw [presses_cons]
    rcases ih (fire t s) with h | ⟨hl, hf⟩
    · exact Or.inl h
    · rw [hl, hf]
      unfold fire buttonInterrupt
      split
      · exact Or.inl rfl
      · exact Or.inr ⟨rfl, rfl⟩

theorem elapse_handlerOnly (ms : Nat) : handlerOnly s (elapse ms s) := by
  refine ⟨by simp, ?_, ?_⟩
  · have := presses_kept
      { s with button := s.button.dropWhile (fun t => decide (t ≤ s.clock + ms)) }
      (s.button.takeWhile (fun t => decide (t ≤ s.clock + ms)))
    simpa [elapse] using this
  · intro h
    rw [elapse_clock] at h
    cases hb : s.button with
    | nil => simp [elapse, hb]
    | cons a l =>
      have ha : ¬ a ≤ s.clock + ms := not_le.mpr (h a (by simp [hb]))
      simp [elapse, hb, ha]

theorem showTime_handlerOnly : handlerOnly s (showTime env s) :=
  handlerOnly_of_eq (by simp) (by simp) (by simp) (by simp)

theorem feedFish_handlerOnly : handlerOnly s (feedFish s) := by
  have h1 : handlerOnly s (feedOpen s) :=
    handlerOnly_of_eq (by simp [feedOpen, feederServoWrite])
      (by simp [feedOpen, feederServoWrite])
      (by simp [feedOpen, feederServoWrite]) (by simp [feedOpen, feederServoWrite])
  have h2 := elapse_handlerOnly (feedOpen s) FEEDING_DURATION
  have h3 : handlerOnly (elapse FEEDING_DURATION (feedOpen s)) (feedFish s) :=
    handlerOnly_of_eq (by simp [feedFish, feedClose, feederServoWrite])
      (by simp [feedFish, feedClose, feederServoWrite])
      (by simp [feedFish, feedClose, feederServoWrite])
      (by simp [feedFish, feedClose, feederServoWrite])
  exact handlerOnly_trans (handlerOnly_trans h1 h2) h3

theorem manualSettle_handlerOnly : handlerOnly s (manualSettle s) :=
  handlerOnly_trans (elapse_handlerOnly s 1000)
    (handlerOnly_of_eq (by simp [manualSettle]) (by simp [manualSettle])
      (by simp [manualSettle]) (by simp [manualSettle]))

theorem autoPhase_handlerOnly : handlerOnly s (autoPhase s) := by
  cases h : autoDue s
  · rw [autoPhase_neg s h]
    exact handlerOnly_refl s
  · rw [autoPhase_pos s h]
    have h1 : handlerOnly s (autoAnnounce s) :=
      handlerOnly_of_eq (by simp [autoAnnounce]) (by simp [autoAnnounce])
        (by simp [autoAnnounce]) (by simp [autoAnnounce])
    have h2 := feedFish_handlerOnly (autoAnnounce s)
    have h3 : handlerOnly (feedFish (autoAnnounce s))
        { feedFish (autoAnnounce s) with lastAutoFeedTime := millis s } :=
      handlerOnly_of_eq rfl rfl rfl rfl
    have h4 := elapse_handlerOnly
      { feedFish (autoAnnounce s) with lastAutoFeedTime := millis s } 1000
    have h5 : handlerOnly
        (elapse 1000 { feedFish (autoAnnounce s) with lastAutoFeedTime := millis s })
        (autoFinish (millis s) (feedFish (autoAnnounce s))) :=
      handlerOnly_of_eq (by simp [autoFinish]) (by simp [autoFinish]) (by simp [autoFinish])
        (by simp [autoFinish])
    exact handlerOnly_trans (handlerOnly_trans (handlerOnly_trans
      (handlerOnly_trans h1 h2) h3) h4) h5

theorem sampleFold_handlerOnly (adc : Nat → Int) (l : List Nat) (acc : Int × State) :
    handlerOnly acc.2
      (l.foldl (fun (acc : Int × State) i => (wrapLong (acc.1 + adc i), elapse 10 acc.2))
        acc).2 := by
  induction l generalizing acc with
  | nil => exact handlerOnly_refl _
  | cons i l ih =>
    rw [List.foldl_cons]
    exact handlerOnly_trans (elapse_handlerOnly acc.2 10)
      (ih (wrapLong (acc.1 + adc i), elapse 10 acc.2))

theorem fanControl_handlerOnly : handlerOnly s (fanControl tempC s) := by
  apply handlerOnly_of_eq <;>
  · unfold fanControl
    split_ifs <;> simp only [digitalWrite] <;> (try split_ifs) <;> simp

theorem tempPhase_handlerOnly : handlerOnly s (tempPhase disc tempC s) := by
  unfold tempPhase
  split_ifs
  · have h1 : handlerOnly s (emit (.lcdPrint "C") (emit (.lcdPrintFloat tempC 1)
        (emit (.lcdSetCursor 5 1) (emit (.lcdPrint "     ") (emit (.lcdSetCursor 5 1) s))))) :=
      handlerOnly_of_eq (by simp) (by simp) (by simp) (by simp)
    exact handlerOnly_trans h1 (fanControl_handlerOnly tempC _)
  · exact handlerOnly_of_eq (by simp [tempError]) (by simp [tempError]) (by simp [tempError])
      (by simp [tempError])

theorem sensePhase_handlerOnly : handlerOnly s (sensePhase disc env s) := by
  have h1 : handlerOnly s (readPH env.adc s).2 := by
    simp only [readPH, sampleLoop]
    exact sampleFold_handlerOnly env.adc _ (0, s)
  have h2 : handlerOnly (readPH env.adc s).2 (showPH (readPH env.adc s).1 (readPH env.adc s).2) :=
    handlerOnly_of_eq (by simp [showPH]) (by simp [showPH]) (by simp [showPH])
      (by simp [showPH])
  have h3 := elapse_handlerOnly (showPH (readPH env.adc s).1 (readPH env.adc s).2)
    env.conversion
  have h4 := tempPhase_handlerOnly disc env.tempC (senseStart env s).2
  have h5 : handlerOnly (tempPhase disc env.tempC (senseStart env s).2)
      (statusLine (senseStart env s).1 env.tempC (tempPhase disc env.tempC (senseStart env s).2)) :=
    handlerOnly_of_eq (by simp [statusLine]) (by simp [statusLine]) (by simp [statusLine])
      (by simp [statusLine])
  have h6 := elapse_handlerOnly
    (statusLine (senseStart env s).1 env.tempC (tempPhase disc env.tempC (senseStart env s).2))
    750
  exact handlerOnly_trans (handlerOnly_trans (handlerOnly_trans (handlerOnly_trans
    (handlerOnly_trans h1 h2) h3) h4) h5) h6

/-- An iteration that finds no request pending does not clear the flag. -/
theorem loop_idle_handlerOnly (h : s.manualFeedRequested = false) :
    handlerOnly s (loop disc env s) := by
  have h0 : atCheck env s = showTime env s := by
    simp [atCheck, manualPhase_neg, h]
  rw [loop, h0]
  exact handlerOnly_trans (handlerOnly_trans (showTime_handlerOnly env s)
    (autoPhase_handlerOnly _)) (sensePhase_handlerOnly disc env _)

/-- An iteration that services a manual request: the flag is cleared when
`feedFish()` has returned, and only the handler touches it afterwards. -/
theorem loop_manual_eq (h : s.manualFeedRequested = true) :
    loop disc env s = sensePhase disc env
      (manualSettle (manualClear (feedFish (manualAnnounce (showTime env s))))) := by
  have h1 : (showTime env s).manualFeedRequested = true := by simp [h]
  have h2 : autoDue (atCheck env s) = false := by simp [autoDue_atCheck, h]
  rw [loop, autoPhase_neg _ h2, atCheck, manualPhase_pos _ h1]

end Flag

section FeedClaims

variable (disc : ℚ) (env : Env) (s : State)

theorem loop_feedCount :
    feedCount (loop disc env s).log = feedCount s.log +
      (if s.manualFeedRequested = true ∨ autoDue s = true then 1 else 0) := by
  rw [feedCount_eq, feedCount_eq, loop_feedTrace]
  cases s.manualFeedRequested <;> cases autoDue s <;>
    simp [manualTrace, autoTrace, VALVE_OPEN_POSITION, VALVE_CLOSED_POSITION]

theorem loop_manualCount :
    manualCount (loop disc env s).log = manualCount s.log +
      (if s.manualFeedRequested then 1 else 0) := by
  rw [manualCount_eq, manualCount_eq, loop_feedTrace]
  cases s.manualFeedRequested <;> cases autoDue s <;> simp [manualTrace, autoTrace]

theorem loop_autoCount :
    autoCount (loop disc env s).log = autoCount s.log +
      (if s.manualFeedRequested = false ∧ autoDue s = true then 1 else 0) := by
  rw [autoCount_eq, autoCount_eq, loop_feedTrace]
  cases s.manualFeedRequested <;> cases autoDue s <;> simp [manualTrace, autoTrace]

/-- C5: an iteration of `loop()` runs at most one feed sequence: one exactly when
a manual request is pending or the interval has elapsed at its start.  When a
manual request is pending the sequence is the manual one and no automatic feed
runs in that iteration, whether or not the interval has elapsed as well. -/
theorem one_feed_per_iteration (disc : ℚ) (env : Env) (s : State) :
    feedCount (loop disc env s).log ≤ feedCount s.log + 1 ∧
    feedCount (loop disc env s).log = feedCount s.log +
      (if s.manualFeedRequested = true ∨ autoDue s = true then 1 else 0) ∧
    manualCount (loop disc env s).log = manualCount s.log +
      (if s.manualFeedRequested then 1 else 0) ∧
    autoCount (loop disc env s).log = autoCount s.log +
      (if s.manualFeedRequested = false ∧ autoDue s = true then 1 else 0) ∧
    autoDue (atCheck env s) = (!s.manualFeedRequested && autoDue s) := by
  refine ⟨?_, loop_feedCount disc env s, loop_manualCount disc env s,
    loop_autoCount disc env s, autoDue_atCheck env s⟩
  rw [loop_feedCount]
  split_ifs <;> omega

theorem setup_ok (s0 : State) :
    setup true s0 = some (setupState s0) := by
  simp [setup, setupState]

@[simp] theorem setupState_clock (s0 : State) : (setupState s0).clock = s0.clock := by
  simp [setupState, digitalWrite, feederServoWrite]
@[simp] theorem setupState_lastAutoFeedTime (s0 : State) :
    (setupState s0).lastAutoFeedTime = s0.clock % 2 ^ 32 := by
  simp [setupState, digitalWrite, feederServoWrite, millis]
@[simp] theorem setupState_manualFeedRequested (s0 : State) :
    (setupState s0).manualFeedRequested = s0.manualFeedRequested := by
  simp [setupState, digitalWrite, feederServoWrite]
@[simp] theorem setupState_servo (s0 : State) :
    (setupState s0).servo = VALVE_CLOSED_POSITION := by
  simp [setupState, digitalWrite, feederServoWrite]
@[simp] theorem setupState_button (s0 : State) : (setupState s0).button = s0.button := by
  simp [setupState, digitalWrite, feederServoWrite]
@[simp] theorem setupState_lastDebounceTime (s0 : State) :
    (setupState s0).lastDebounceTime = s0.lastDebounceTime := by
  simp [setupState, digitalWrite, feederServoWrite]

theorem dueState_facts :
    dueState.clock = 60000 ∧ dueState.lastAutoFeedTime = 0 ∧
      dueState.manualFeedRequested = false := by
  have h0 : autoDue (setupState (boot 0 [])) = false := by
    simp [autoDue, millis, usub, boot, autoFeedInterval]
  have hm : (setupState (boot 0 [])).manualFeedRequested = false := by simp [boot]
  refine ⟨?_, ?_, ?_⟩
  · rw [dueState, loop_clock, h0, hm]
    simp [boot, dueEnv, exampleEnv]
  · rw [dueState, loop_lastAutoFeedTime, h0, hm]
    simp [boot]
  · have h := (loop_idle_handlerOnly (-127) dueEnv _ hm).2.2 (by simp [boot])
    rw [dueState, h.2.2, hm]

/-- C6, as stated, fails for the automatic feed.  In the state reached from
power-on by `setup()` and one iteration that ends at 60000 ms, no manual request
is pending and the interval has elapsed: the automatic feed is serviced,
`feedFish()` returns at 61000 ms, and the timer is left at 60000 ms. -/
theorem auto_timer_not_completion_time :
    dueState.manualFeedRequested = false ∧ autoDue dueState = true ∧
    (autoPhase dueState).lastAutoFeedTime = 60000 ∧
    millis (feedFish (autoAnnounce dueState)) = 61000 ∧
    (autoPhase dueState).lastAutoFeedTime ≠ millis (feedFish (autoAnnounce dueState)) ∧
    (loop (-127) dueEnv dueState).lastAutoFeedTime = 60000 := by
  obtain ⟨hc, hl, hm⟩ := dueState_facts
  have hd : autoDue dueState = true := by
    simp [autoDue, millis, usub, hc, hl, autoFeedInterval]
  have h1 : (autoPhase dueState).lastAutoFeedTime = 60000 := by
    rw [autoPhase_lastAutoFeedTime]
    simp [hd, millis, hc]
  have h2 : millis (feedFish (autoAnnounce dueState)) = 61000 := by
    simp [millis_feedFish, autoAnnounce, FEEDING_DURATION, hc]
  refine ⟨hm, hd, h1, h2, ?_, ?_⟩
  · rw [h1, h2]
    omega
  · rw [loop_lastAutoFeedTime]
    simp [hm, hd, hc]

/-- C6 (amended): a manual feed sets the timer to the clock reading taken after
`feedFish()` has returned, `FEEDING_DURATION` after the start of the feed; an
automatic feed sets it to `currentMillis`, the clock reading of the interval
test taken before `feedFish()` is called. -/
theorem feed_timer_reset (disc : ℚ) (env : Env) (s : State) :
    (manualPhase s).lastAutoFeedTime =
      (if s.manualFeedRequested then millis (feedFish (manualAnnounce s))
       else s.lastAutoFeedTime) ∧
    millis (feedFish (manualAnnounce s)) = (s.clock + FEEDING_DURATION) % 2 ^ 32 ∧
    (autoPhase s).lastAutoFeedTime = (if autoDue s then millis s else s.lastAutoFeedTime) ∧
    millis s = s.clock % 2 ^ 32 ∧
    millis (feedFish (autoAnnounce s)) = (s.clock + FEEDING_DURATION) % 2 ^ 32 ∧
    FEEDING_DURATION = 1000 ∧
    (loop disc env s).lastAutoFeedTime =
      (if s.manualFeedRequested then (s.clock + FEEDING_DURATION) % 2 ^ 32
       else if autoDue s then s.clock % 2 ^ 32 else s.lastAutoFeedTime) := by
  refine ⟨manualPhase_lastAutoFeedTime s, ?_, autoPhase_lastAutoFeedTime s, rfl, ?_, rfl,
    loop_lastAutoFeedTime disc env s⟩
  · simp [millis_feedFish, manualAnnounce]
  · simp [millis_feedFish, autoAnnounce]

end FeedClaims

section Postpone

variable (disc : ℚ) (env env0 : Env) (s : State)

theorem loop_clock_le : s.clock ≤ (loop disc env s).clock := by
  rw [loop_clock]
  omega

theorem run_clock_le (envs : List Env) : s.clock ≤ (run disc envs s).clock := by
  induction envs generalizing s with
  | nil => exact le_refl _
  | cons e es ih =>
    rw [run_cons]
    exact le_trans (loop_clock_le disc e s) (ih _)

/-- While the clock has not wrapped, the timer never lies before an earlier
reset time `t` nor after the clock. -/
theorem loop_timer (t : Nat) (h1 : t ≤ s.lastAutoFeedTime) (h2 : s.lastAutoFeedTime ≤ s.clock)
    (hw : (loop disc env s).clock < 2 ^ 32) :
    t ≤ (loop disc env s).lastAutoFeedTime ∧
      (loop disc env s).lastAutoFeedTime ≤ (loop disc env s).clock := by
  rw [loop_clock] at hw
  rw [loop_lastAutoFeedTime, loop_clock]
  norm_num [FEEDING_DURATION] at hw ⊢
  cases hm : s.manualFeedRequested <;> cases hd : autoDue s <;> simp [hm, hd] at hw ⊢ <;> omega

theorem run_timer (t : Nat) (envs : List Env) (h1 : t ≤ s.lastAutoFeedTime)
    (h2 : s.lastAutoFeedTime ≤ s.clock) (hw : (run disc envs s).clock < 2 ^ 32) :
    t ≤ (run disc envs s).lastAutoFeedTime ∧
      (run disc envs s).lastAutoFeedTime ≤ (run disc envs s).clock := by
  induction envs generalizing s with
  | nil => exact ⟨h1, h2⟩
  | cons e es ih =>
    rw [run_cons] at hw ⊢
    have hl : (loop disc e s).clock < 2 ^ 32 := lt_of_le_of_lt (run_clock_le disc _ es) hw
    obtain ⟨a, b⟩ := loop_timer disc e s t h1 h2 hl
    exact ih _ a b hw

/-- Without wrap-around the interval test compares the time since the timer was
set with the interval. -/
theorem autoDue_iff (h2 : s.lastAutoFeedTime ≤ s.clock) (hw : s.clock < 2 ^ 32) :
    autoDue s = true ↔ s.lastAutoFeedTime + autoFeedInterval ≤ s.clock := by
  have hm : millis s = s.clock := Nat.mod_eq_of_lt hw
  simp only [autoDue, hm, usub_exact _ _ h2 hw, decide_eq_true_eq, ge_iff_le]
  omega

/-- C7: when an iteration services a manual feed, resetting the timer at time
`t`, and the clock has not wrapped by the interval test of a later iteration,
then that test fails (no automatic feed runs in that iteration) if it happens
before `t + autoFeedInterval`; an automatic feed fires only at or after
`t + 60000`, so after a manual feed at 10000 ms not before 70000 ms. -/
theorem manual_feed_postpones_auto (disc : ℚ) (env env0 : Env) (s : State)
    (envs : List Env) (hm : s.manualFeedRequested = true)
    (hw : (atCheck env (run disc envs (loop disc env0 s))).clock < 2 ^ 32) :
    (loop disc env0 s).lastAutoFeedTime = s.clock + FEEDING_DURATION ∧
    autoFeedInterval = 60000 ∧
    ((atCheck env (run disc envs (loop disc env0 s))).clock
        < s.clock + FEEDING_DURATION + autoFeedInterval →
      autoDue (atCheck env (run disc envs (loop disc env0 s))) = false ∧
      autoCount (loop disc env (run disc envs (loop disc env0 s))).log =
        autoCount (run disc envs (loop disc env0 s)).log) ∧
    (autoDue (atCheck env (run disc envs (loop disc env0 s))) = true →
      s.clock + FEEDING_DURATION + autoFeedInterval ≤
        (atCheck env (run disc envs (loop disc env0 s))).clock) ∧
    (s.clock + FEEDING_DURATION = 10000 →
      autoDue (atCheck env (run disc envs (loop disc env0 s))) = true →
      70000 ≤ (atCheck env (run disc envs (loop disc env0 s))).clock) := by
  have hk : (run disc envs (loop disc env0 s)).clock ≤
      (atCheck env (run disc envs (loop disc env0 s))).clock := by
    rw [atCheck_clock]; omega
  have hr : (run disc envs (loop disc env0 s)).clock < 2 ^ 32 := lt_of_le_of_lt hk hw
  have hl : (loop disc env0 s).clock < 2 ^ 32 := lt_of_le_of_lt (run_clock_le disc _ envs) hr
  have hc1 : (loop disc env0 s).clock = s.clock + 2000 + 100 + env0.conversion + 750 := by
    rw [loop_clock]; simp [hm]
  have ht : (loop disc env0 s).lastAutoFeedTime = s.clock + FEEDING_DURATION := by
    rw [loop_lastAutoFeedTime]
    simp only [hm, if_true]
    apply Nat.mod_eq_of_lt
    rw [hc1] at hl
    unfold FEEDING_DURATION
    omega
  obtain ⟨a, b⟩ := run_timer disc (loop disc env0 s) (s.clock + FEEDING_DURATION) envs
    (le_of_eq ht.symm) (by rw [ht, hc1]; unfold FEEDING_DURATION; omega) hr
  have key : autoDue (atCheck env (run disc envs (loop disc env0 s))) = true →
      s.clock + FEEDING_DURATION + autoFeedInterval ≤
        (atCheck env (run disc envs (loop disc env0 s))).clock := by
    intro hd
    rw [autoDue_atCheck] at hd
    simp only [Bool.and_eq_true, Bool.not_eq_true'] at hd
    have := (autoDue_iff _ b hr).mp hd.2
    omega
  refine ⟨ht, rfl, ?_, key, ?_⟩
  · intro hlt
    have hf : autoDue (atCheck env (run disc envs (loop disc env0 s))) = false := by
      cases h : autoDue (atCheck env (run disc envs (loop disc env0 s)))
      · rfl
      · have := key h
        omega
    refine ⟨hf, ?_⟩
    rw [loop_autoCount]
    rw [autoDue_atCheck] at hf
    cases h1 : (run disc envs (loop disc env0 s)).manualFeedRequested <;>
      cases h2 : autoDue (run disc envs (loop disc env0 s)) <;> simp [h1, h2] at hf ⊢
  · intro h10 hd
    have := key hd
    unfold autoFeedInterval at this
    omega

end Postpone

section Valve

variable (disc : ℚ) (env : Env) (s : State)

theorem valve_closed_iff : valve s = .Closed ↔ s.servo = VALVE_CLOSED_POSITION := by
  unfold valve
  split_ifs with h <;> simp [h]

theorem loop_servoWrites :
    servoWrites (loop disc env s).log = servoWrites s.log ++
      (if s.manualFeedRequested = true ∨ autoDue s = true
       then [VALVE_OPEN_POSITION, VALVE_CLOSED_POSITION] else []) := by
  rw [servoWrites_eq, loop_feedTrace, servoWrites_append, ← servoWrites_eq]
  cases s.manualFeedRequested <;> cases autoDue s <;>
    simp [manualTrace, autoTrace, servoWrites]

theorem run_servo (envs : List Env) (h : s.servo = VALVE_CLOSED_POSITION) :
    (run disc envs s).servo = VALVE_CLOSED_POSITION := by
  induction envs generalizing s with
  | nil => exact h
  | cons e es ih =>
    rw [run_cons]
    apply ih
    rw [loop_servo]
    split_ifs
    · rfl
    · exact h

/-- C8: after `setup()` the valve is closed; after `feedFish()` it is closed
whatever its position before; it is closed at the end of every iteration of
`loop()` that starts with it closed, hence after every run that follows
`setup()`; inside `feedFish()` it is open from the open step to the close step,
and the only servo writes of an iteration are the open and the close step of
its feed sequence, in this order. -/
theorem valve_closed_outside_feed (disc : ℚ) :
    (∀ s0 : State, ∃ s1, setup true s0 = some s1 ∧ s1.servo = 0 ∧ valve s1 = .Closed ∧
      ∀ envs, valve (run disc envs s1) = .Closed) ∧
    (∀ s : State, (feedFish s).servo = 0 ∧ valve (feedFish s) = .Closed ∧
      valve (feedOpen s) = .Open ∧
      valve (elapse FEEDING_DURATION (feedOpen s)) = .Open ∧
      feedFish s = feedClose (elapse FEEDING_DURATION (feedOpen s)) ∧
      servoWrites (feedFish s).log =
        servoWrites s.log ++ [VALVE_OPEN_POSITION, VALVE_CLOSED_POSITION]) ∧
    (∀ (env : Env) (s : State),
      (valve s = .Closed → valve (loop disc env s) = .Closed) ∧
      servoWrites (loop disc env s).log = servoWrites s.log ++
        (if s.manualFeedRequested = true ∨ autoDue s = true
         then [VALVE_OPEN_POSITION, VALVE_CLOSED_POSITION] else [])) := by
  refine ⟨?_, ?_, ?_⟩
  · intro s0
    refine ⟨setupState s0, setup_ok s0, by simp [VALVE_CLOSED_POSITION], ?_, ?_⟩
    · rw [valve_closed_iff]; simp
    · intro envs
      rw [valve_closed_iff]
      exact run_servo disc _ envs (by simp)
  · intro s
    refine ⟨by simp [VALVE_CLOSED_POSITION], ?_, ?_, ?_, rfl, ?_⟩
    · rw [valve_closed_iff]; simp
    · simp [valve, feedOpen, feederServoWrite, VALVE_OPEN_POSITION, VALVE_CLOSED_POSITION]
    · simp [valve, feedOpen, feederServoWrite, VALVE_OPEN_POSITION, VALVE_CLOSED_POSITION]
    · rw [servoWrites_eq, feedFish_feedTrace, servoWrites_append, ← servoWrites_eq]
      simp [servoWrites]
  · intro env s
    refine ⟨?_, loop_servoWrites disc env s⟩
    intro h
    rw [valve_closed_iff] at h ⊢
    exact run_servo disc s [env] h

end Valve

section Sampler

theorem wrapLong_eq (x : Int) (h1 : -2 ^ 31 ≤ x) (h2 : x < 2 ^ 31) : wrapLong x = x := by
  unfold wrapLong
  norm_num at h1 h2 ⊢
  omega

/-- The sampling loop adds the samples up: no sum of at most ten 10-bit samples
leaves the range of a `long`. -/
theorem sampleFold_sum (adc : Nat → Int) (l : List Nat) (acc : Int × State)
    (h : ∀ i ∈ l, 0 ≤ adc i ∧ adc i ≤ 1023) (h0 : 0 ≤ acc.1)
    (hb : acc.1 + 1023 * l.length < 2 ^ 31) :
    (l.foldl (fun (acc : Int × State) i => (wrapLong (acc.1 + adc i), elapse 10 acc.2))
      acc).1 = acc.1 + (l.map adc).sum := by
  induction l generalizing acc with
  | nil => simp
  | cons i l ih =>
    have hi := h i (List.mem_cons_self _ _)
    have hlen : ((i :: l).length : Int) = l.length + 1 := by simp
    rw [hlen] at hb
    have hw : wrapLong (acc.1 + adc i) = acc.1 + adc i := by
      apply wrapLong_eq
      · have : (0 : Int) ≤ acc.1 + adc i := by omega
        norm_num
        omega
      · have : (0 : Int) ≤ (l.length : Int) := Int.natCast_nonneg _
        omega
    rw [List.foldl_cons, ih (wrapLong (acc.1 + adc i), elapse 10 acc.2)
      (fun j hj => h j (List.mem_cons_of_mem _ hj))]
    · simp only [hw, List.map_cons, List.sum_cons]
      omega
    · simp only [hw]
      omega
    · simp only [hw]
      have : (0 : Int) ≤ (l.length : Int) := Int.natCast_nonneg _
      omega

/-- C9: for ten samples in [0, 1023], `readPH()` returns
`voltage * PH_SLOPE + PH_OFFSET` with `voltage` the average of the samples times
5.0 / 1024.0, in exact arithmetic; when the samples sum to 4096 the voltage is
2 V and the result is 30.701568 + 2.00 * (-8.041885), which rounds to 14.62. -/
theorem readPH_value (adc : Nat → Int) (s : State)
    (h : ∀ i, i < 10 → 0 ≤ adc i ∧ adc i ≤ 1023) :
    (readPH adc s).1 =
      ((((List.range 10).map adc).sum : Int) : ℚ) / 10 * 5.0 / 1024.0 * PH_SLOPE
        + PH_OFFSET ∧
    PH_SLOPE = -8.041885 ∧ PH_OFFSET = 30.701568 ∧
    (((List.range 10).map adc).sum = 4096 →
      ((((List.range 10).map adc).sum : Int) : ℚ) / 10 * 5.0 / 1024.0 = 2.00 ∧
      (readPH adc s).1 = 30.701568 + 2.00 * (-8.041885) ∧
      round ((readPH adc s).1 * 100) = 1462) := by
  have hsum : (sampleLoop adc s).1 = ((List.range 10).map adc).sum := by
    unfold sampleLoop SAMPLES
    rw [sampleFold_sum adc (List.range 10) (0, s)
      (fun i hi => h i (List.mem_range.mp hi)) (le_refl _) (by norm_num)]
    simp
  have hval : (readPH adc s).1 =
      ((((List.range 10).map adc).sum : Int) : ℚ) / 10 * 5.0 / 1024.0 * PH_SLOPE
        + PH_OFFSET := by
    simp only [readPH, hsum, SAMPLES]
    norm_num
  refine ⟨hval, rfl, rfl, ?_⟩
  intro h4096
  rw [hval, h4096]
  refine ⟨by norm_num, by norm_num [PH_SLOPE, PH_OFFSET], ?_⟩
  rw [round_eq, Int.floor_eq_iff]
  norm_num [PH_SLOPE, PH_OFFSET]

end Sampler

section LostTrigger

variable (disc : ℚ) (env : Env) (s : State)

set_option maxRecDepth 100000 in
/-- C10, as stated, fails.  The button is pressed 1000 ms and 1800 ms after
power-on.  The first press is accepted and pending when the third iteration
starts at 1700 ms; during its feed sequence (1700 ms to 2700 ms) the handler
accepts the second press at 1800 ms; the flag is cleared after `feedFish()` has
returned, is not pending at the end of the iteration, and the next iteration runs
no manual feed: one manual feed for two accepted triggers. -/
theorem trigger_during_feed_lost :
    pressState.manualFeedRequested = true ∧ pressState.lastDebounceTime = 1000 ∧
    pressState.clock = 1700 ∧ pressState.button = [1800] ∧
    acceptedTimes [1800] (feedOpen (manualAnnounce (showTime (exampleEnv 25 0) pressState)))
      = [1800] ∧
    (feedFish (manualAnnounce (showTime (exampleEnv 25 0) pressState))).clock = 2700 ∧
    (feedFish (manualAnnounce (showTime (exampleEnv 25 0) pressState))).lastDebounceTime
      = 1800 ∧
    (feedFish (manualAnnounce (showTime (exampleEnv 25 0) pressState))).manualFeedRequested
      = true ∧
    (loop (-127) (exampleEnv 25 0) pressState).manualFeedRequested = false ∧
    manualCount (loop (-127) (exampleEnv 25 0) pressState).log = 1 ∧
    manualCount (loop (-127) (exampleEnv 25 0)
      (loop (-127) (exampleEnv 25 0) pressState)).log = 1 := by
  with_unfolding_all decide

/-- C10 (amended): in an iteration that services a manual feed the flag is
cleared after `feedFish()` has returned, whatever the handler did during the
feed sequence.  If no button edge falls between that return and the end of the
iteration, the flag is not pending at the end and the next iteration runs no
manual feed.  If the handler accepts a trigger after the clear (the debounce
time stamp has moved), the flag is pending at the end of the iteration; and a
flag pending at the end of the iteration is serviced by the next iteration. -/
theorem manual_trigger_after_clear (disc : ℚ) (env : Env) (s : State) (env1 : Env)
    (hm : s.manualFeedRequested = true) :
    (manualClear (feedFish (manualAnnounce (showTime env s)))).manualFeedRequested = false ∧
    loop disc env s = sensePhase disc env
      (manualSettle (manualClear (feedFish (manualAnnounce (showTime env s))))) ∧
    ((∀ t ∈ (feedFish (manualAnnounce (showTime env s))).button,
        (loop disc env s).clock < t) →
      (loop disc env s).manualFeedRequested = false ∧
      manualCount (loop disc env1 (loop disc env s)).log =
        manualCount (loop disc env s).log) ∧
    ((loop disc env s).lastDebounceTime ≠
        (feedFish (manualAnnounce (showTime env s))).lastDebounceTime →
      (loop disc env s).manualFeedRequested = true) ∧
    ((loop disc env s).manualFeedRequested = true →
      manualCount (loop disc env1 (loop disc env s)).log =
        manualCount (loop disc env s).log + 1) := by
  have hH : handlerOnly (manualClear (feedFish (manualAnnounce (showTime env s))))
      (loop disc env s) := by
    rw [loop_manual_eq disc env s hm]
    exact handlerOnly_trans (manualSettle_handlerOnly _) (sensePhase_handlerOnly disc env _)
  obtain ⟨_, hk, hq⟩ := hH
  refine ⟨rfl, loop_manual_eq disc env s hm, ?_, ?_, ?_⟩
  · intro hb
    have h1 := (hq hb).2.2
    have h2 : (loop disc env s).manualFeedRequested = false := by rw [h1]; rfl
    refine ⟨h2, ?_⟩
    rw [loop_manualCount, h2]
    simp
  · intro hne
    rcases hk with h | ⟨hl, _⟩
    · exact h
    · exact absurd hl hne
  · intro h
    rw [loop_manualCount, h]
    simp

end LostTrigger

/-! ## The theorems at concrete inputs -/

section Witnesses

set_option maxRecDepth 100000 in
theorem run_fan_hysteresis_witness :
    idleState.fanRunning = false ∧
    (run (-127) [exampleEnv 31 0, exampleEnv 29 0] idleState).fanRunning = true ∧
    (loop (-127) (exampleEnv 29 0) idleState).fanRunning = idleState.fanRunning :=
  ⟨by with_unfolding_all decide,
    (run_fan_hysteresis (-127) idleState [exampleEnv 31 0, exampleEnv 29 0]
      (by with_unfolding_all decide)).1.mpr
      ⟨[], exampleEnv 31 0, [exampleEnv 29 0], rfl,
        ⟨by norm_num [exampleEnv], by norm_num [exampleEnv]⟩,
        by intro x hx _; rw [List.mem_singleton.mp hx]; norm_num [exampleEnv]⟩,
    (run_fan_hysteresis (-127) idleState [] (by with_unfolding_all decide)).2
      (exampleEnv 29 0) idleState (by norm_num [exampleEnv]) (by norm_num [exampleEnv])⟩

set_option maxRecDepth 100000 in
theorem loop_fan_transition_witness :
    (exampleEnv 31 0).tempC ≠ (-127 : ℚ) ∧
    (loop (-127) (exampleEnv 31 0) idleState).fanRunning = true ∧
    (run (-127) [{ exampleEnv 31 0 with tempC := 30.1 }, { exampleEnv 31 0 with tempC := 29.0 },
      { exampleEnv 31 0 with tempC := 28.0 }]
      { idleState with fanRunning := false }).fanRunning = false := by
  have h := loop_fan_transition (-127) (exampleEnv 31 0) idleState
    (by norm_num [exampleEnv]) (by norm_num) (by norm_num) (by norm_num)
  refine ⟨by norm_num [exampleEnv], ?_, h.2.2.2⟩
  rw [h.1]
  have h0 : idleState.fanRunning = false := by with_unfolding_all decide
  norm_num [h0, exampleEnv]

set_option maxRecDepth 100000 in
theorem loop_disconnected_witness :
    (exampleEnv (-127) 0).tempC = (-127 : ℚ) ∧
    (loop (-127) (exampleEnv (-127) 0) { idleState with fanRunning := true }).fanRunning
      = true ∧
    (loop (-127) (exampleEnv (-127) 0) idleState).fanRunning = false ∧
    (loop (-127) (exampleEnv (-127) 0) idleState).pinLevel FAN_PIN = false :=
  ⟨rfl, (loop_disconnected (-127) (exampleEnv (-127) 0) { idleState with fanRunning := true }
      rfl).1,
    (loop_disconnected (-127) (exampleEnv (-127) 0) idleState rfl).1.trans
      (by with_unfolding_all decide),
    (loop_disconnected (-127) (exampleEnv (-127) 0) idleState rfl).2.1.trans
      (by with_unfolding_all decide)⟩

set_option maxRecDepth 100000 in
theorem debounce_spacing_witness :
    [100, 600, 1000, 1400, 1501, 1600].Pairwise (fun x y => x ≤ y) ∧
    (∀ t ∈ [100, 600, 1000, 1400, 1501, 1600], idleState.clock ≤ t) ∧
    acceptedTimes [100, 600, 1000, 1400, 1501, 1600] idleState = [600, 1400] ∧
    (acceptedTimes [100, 600, 1000, 1400, 1501, 1600] idleState).Pairwise
      (fun a b => a + 500 ≤ b) :=
  ⟨by decide, by with_unfolding_all decide, by with_unfolding_all decide,
    (debounce_spacing idleState [100, 600, 1000, 1400, 1501, 1600] (by decide)
      (by with_unfolding_all decide)).2.2.2.2.1⟩

set_option maxRecDepth 100000 in
theorem manual_feed_postpones_auto_witness :
    tenState.manualFeedRequested = true ∧ tenState.clock + FEEDING_DURATION = 10000 ∧
    (atCheck (exampleEnv 25 0) (run (-127) [] (loop (-127) (exampleEnv 25 0) tenState))).clock
      = 11850 ∧
    autoDue (atCheck (exampleEnv 25 0)
      (run (-127) [] (loop (-127) (exampleEnv 25 0) tenState))) = false ∧
    autoDue (atCheck (exampleEnv 25 0)
      (run (-127) [exampleEnv 25 57300] (loop (-127) (exampleEnv 25 0) tenState))) = true ∧
    70000 ≤ (atCheck (exampleEnv 25 0)
      (run (-127) [exampleEnv 25 57300] (loop (-127) (exampleEnv 25 0) tenState))).clock :=
  ⟨by with_unfolding_all decide, by with_unfolding_all decide, by with_unfolding_all decide,
    ((manual_feed_postpones_auto (-127) (exampleEnv 25 0) (exampleEnv 25 0) tenState []
      (by with_unfolding_all decide) (by with_unfolding_all decide)).2.2.1
      (by with_unfolding_all decide)).1,
    by with_unfolding_all decide,
    (manual_feed_postpones_auto (-127) (exampleEnv 25 0) (exampleEnv 25 0) tenState
      [exampleEnv 25 57300] (by with_unfolding_all decide)
      (by with_unfolding_all decide)).2.2.2.2 (by with_unfolding_all decide)
      (by with_unfolding_all decide)⟩

set_option maxRecDepth 100000 in
theorem readPH_value_witness :
    (∀ i, i < 10 → 0 ≤ twoVoltSamples i ∧ twoVoltSamples i ≤ 1023) ∧
    ((List.range 10).map twoVoltSamples).sum = 4096 ∧
    (readPH twoVoltSamples idleState).1 = 30.701568 + 2.00 * (-8.041885) ∧
    round ((readPH twoVoltSamples idleState).1 * 100) = 1462 := by
  have hr : ∀ i, i < 10 → 0 ≤ twoVoltSamples i ∧ twoVoltSamples i ≤ 1023 := by
    intro i _
    unfold twoVoltSamples
    split_ifs <;> omega
  have hs : ((List.range 10).map twoVoltSamples).sum = 4096 := by decide
  have h := (readPH_value twoVoltSamples idleState hr).2.2.2 hs
  exact ⟨hr, hs, h.2.1, h.2.2⟩

set_option maxRecDepth 100000 in
theorem manual_trigger_after_clear_witness :
    pressState.manualFeedRequested = true ∧
    (loop (-127) (exampleEnv 25 0) pressState).manualFeedRequested = false ∧
    lateState.manualFeedRequested = true ∧
    (loop (-127) (exampleEnv 25 0) lateState).lastDebounceTime = 3000 ∧
    (loop (-127) (exampleEnv 25 0) lateState).manualFeedRequested = true ∧
    manualCount (loop (-127) (exampleEnv 25 0) (loop (-127) (exampleEnv 25 0) lateState)).log
      = manualCount (loop (-127) (exampleEnv 25 0) lateState).log + 1 := by
  have h1 := manual_trigger_after_clear (-127) (exampleEnv 25 0) pressState (exampleEnv 25 0)
    (by with_unfolding_all decide)
  have h2 := manual_trigger_after_clear (-127) (exampleEnv 25 0) lateState (exampleEnv 25 0)
    (by with_unfolding_all decide)
  have h3 := h2.2.2.2.1 (by with_unfolding_all decide)
  exact ⟨by with_unfolding_all decide, (h1.2.2.1 (by with_unfolding_all decide)).1,
    by with_unfolding_all decide, by with_unfolding_all decide, h3, h2.2.2.2.2 h3⟩

end Witnesses
end Aquasense
